import Mathlib

/-!
Verification development for the two-tier spillable key/value buffer
(`maidsafe::data_store::DataBuffer`, `src/include/maidsafe/data_store/data_buffer.h`).

The buffer is embedded as an explicit transition system.  A global state holds the
two tiers (`memory_store_`, `disk_store_`), the spill directory contents, the
`running_` flag, the worker future, and the control points of the background spill
worker and of a finite set of client threads.  Each transition (`step`) is one
lock-protected critical section of the C++ code: a public operation runs from its
entry to its first condition-variable wait (or to completion), and a suspended
thread resumes with one re-evaluation of its wait loop.  Condition-variable wakeups
may happen at any time (C++ permits spurious wakeups), so a parked thread is simply
resumable at every step.  Values are byte strings; a value's length is its size in
bytes, exactly the capacity unit of the code.
-/

namespace DataBufferModel

abbrev Key := Nat
abbrev Value := List Nat

/-- CommonErrors codes thrown by the buffer. -/
inductive Err where
  | invalidParameter
  | uninitialised
  | cannotExceedLimit
  | filesystemIoError
  | noSuchElement
deriving DecidableEq

/-- StoringState from the source (`kNotStarted`, `kStarted`, `kCancelled`, `kCompleted`). -/
inductive StoringState where
  | notStarted
  | started
  | cancelled
  | completed
deriving DecidableEq

/-- MemoryElement: key, value, and the `also_on_disk` migration state. -/
structure MemoryElement where
  key : Key
  value : Value
  also_on_disk : StoringState
deriving DecidableEq

/-- DiskElement: key and spill record state (created as `kStarted`). -/
structure DiskElement where
  key : Key
  state : StoringState
deriving DecidableEq

/-- Storage: the per-tier `max`, `current` and insertion-ordered `index`. -/
structure Storage (α : Type) where
  max : Nat
  current : Nat
  index : List α
deriving DecidableEq

/-- Spill directory contents: association list from key-derived file name to bytes. -/
abbrev Files := List (Key × Value)

def fsLookup (files : Files) (k : Key) : Option Value :=
  (files.find? (fun p => p.1 == k)).map (fun p => p.2)

/-- WriteFile: create or overwrite the spill file for `k`. -/
def fsWrite (files : Files) (k : Key) (v : Value) : Files :=
  (k, v) :: files.filter (fun p => p.1 != k)

def fsErase (files : Files) (k : Key) : Files :=
  files.filter (fun p => p.1 != k)

/-- Outcome of a finished public operation: `good (some v)` is a successful get. -/
inductive OpResult where
  | good (v : Option Value)
  | bad (e : Err)
deriving DecidableEq

/-- Control point of the background worker thread running `CopyQueueToDisk`. -/
inductive WorkerPC where
  | idle
  | waitDisk (k : Key) (v : Value)
  | mark (k : Key)
  | done
  | failed (e : Err)
deriving DecidableEq

/-- Control point of a client thread.  `sJoin` is a client blocked in `worker_.get()`
inside `StoreInMemory`, still holding the memory mutex and the worker mutex. -/
inductive ClientPC where
  | idle
  | ret (r : OpResult)
  | sMemWait (k : Key) (v : Value)
  | sJoin (k : Key) (v : Value)
  | sWaitDisk (k : Key) (v : Value)
  | gWait (k : Key)
deriving DecidableEq

/-- Global state of the buffer together with the thread control points. -/
structure GState where
  memory_store : Storage MemoryElement
  disk_store : Storage DiskElement
  files : Files
  running : Bool
  kPopFunctor : Bool
  futureTaken : Bool
  worker : WorkerPC
  clients : List ClientPC
deriving DecidableEq

def U64 : Nat := 2 ^ 64

/-- HasSpace: `current <= max - required_space` with uint64 subtraction (the debug-only
assert `max >= required_space` has no effect in release builds, so the subtraction wraps). -/
def hasSpace (st : Storage α) (required : Nat) : Bool :=
  decide (st.current ≤ (st.max + U64 - required % U64) % U64)

/-- First element satisfying `p`, with its position (the `std::find_if` pattern). -/
def findWithIdx (p : α → Bool) : List α → Option (Nat × α)
  | [] => none
  | a :: l => if p a then some (0, a) else (findWithIdx p l).map (fun ie => (ie.1 + 1, ie.2))

/-- In-place update of the element at one position (iterator mutation). -/
def modifyIdx : List α → Nat → (α → α) → List α
  | [], _, _ => []
  | a :: l, 0, f => f a :: l
  | a :: l, n + 1, f => a :: modifyIdx l n f

def isJoin : ClientPC → Bool
  | .sJoin _ _ => true
  | _ => false

/-- True when some client holds the memory mutex (and worker mutex) across a boundary:
only a client blocked in `worker_.get()` inside `StoreInMemory` does. -/
def memHeld (s : GState) : Bool := s.clients.any isJoin

def clientAt (s : GState) (i : Nat) : Option ClientPC := s.clients.get? i

def setClient (s : GState) (i : Nat) (c : ClientPC) : GState :=
  { s with clients := s.clients.set i c }

/-- Worker future readiness: `some none` when `CopyQueueToDisk` returned, `some (some e)`
when it exited with exception `e`, `none` while the thread is still live. -/
def workerFinished : WorkerPC → Option (Option Err)
  | .done => some none
  | .failed e => some (some e)
  | _ => none

/-- CheckWorkerIsStillRunning: take the worker future's result if it is ready (consuming
the future), rethrowing its stored exception; then throw `filesystem_io_error` if the
`running_` flag is down. -/
def checkWorker (s : GState) : GState × Option Err :=
  if s.futureTaken then
    if s.running then (s, none) else (s, some Err.filesystemIoError)
  else
    match workerFinished s.worker with
    | some (some e) => ({ s with futureTaken := true }, some e)
    | some none =>
        if s.running then ({ s with futureTaken := true }, none)
        else ({ s with futureTaken := true }, some Err.filesystemIoError)
    | none => if s.running then (s, none) else (s, some Err.filesystemIoError)

/-- DeleteFromMemory: remove the entry by key, returning its `also_on_disk` state;
a miss conservatively reports `kCompleted` so the caller also touches the disk tier. -/
def deleteFromMemory (s : GState) (k : Key) : GState × StoringState :=
  match findWithIdx (fun e => e.key == k) s.memory_store.index with
  | some (i, e) =>
      ({ s with memory_store :=
          { s.memory_store with
              current := s.memory_store.current - e.value.length
              index := s.memory_store.index.eraseIdx i } }, e.also_on_disk)
  | none => (s, StoringState.completed)

/-- RemoveFile: `file_size` (throwing `filesystem_io_error` when the file is gone),
remove the file, subtract its size from the disk tier's `current`. -/
def removeFile (s : GState) (k : Key) : GState × Option Err :=
  match fsLookup s.files k with
  | none => (s, some Err.filesystemIoError)
  | some v =>
      ({ s with
          files := fsErase s.files k
          disk_store := { s.disk_store with current := s.disk_store.current - v.length } }, none)

/-- DeleteFromDisk: a missing key throws `no_such_element`; a `kStarted` record becomes
`kCancelled`; a `kCompleted` record has its file removed and the record erased
(if `RemoveFile` throws, the record stays). -/
def deleteFromDisk (s : GState) (k : Key) : GState × Option Err :=
  match findWithIdx (fun e => e.key == k) s.disk_store.index with
  | none => (s, some Err.noSuchElement)
  | some (i, e) =>
      match e.state with
      | .started =>
          ({ s with disk_store := { s.disk_store with
               index := modifyIdx s.disk_store.index i
                 (fun d => { d with state := StoringState.cancelled }) } }, none)
      | .completed =>
          let rf := removeFile s k
          match rf.2 with
          | some er => (rf.1, some er)
          | none =>
              ({ rf.1 with disk_store := { rf.1.disk_store with
                   index := rf.1.disk_store.index.eraseIdx i } }, none)
      | _ => (s, none)

/-- Delete: check the worker, delete from memory, and also from disk unless the memory
entry had never begun migrating. -/
def deleteOp (s : GState) (k : Key) : GState × Option Err :=
  let cw := checkWorker s
  match cw.2 with
  | some e => (cw.1, some e)
  | none =>
      let dm := deleteFromMemory cw.1 k
      if dm.2 == StoringState.notStarted then (dm.1, none)
      else deleteFromDisk dm.1 k

/-- Result of evaluating the `WaitForSpaceOnDisk` loop up to its next suspension:
`exitTop` leaves at the `while` condition, `exitCancelled` returns with the
`cancelled` flag set, `threw` propagates a `RemoveFile` exception from the pop path,
`blocked` parks on the disk condition variable. -/
inductive SodLoopResult where
  | exitTop
  | exitCancelled
  | threw (e : Err)
  | blocked
deriving DecidableEq

/-- WaitForSpaceOnDisk loop body, evaluated while holding the disk lock.  The pop-functor
path removes the front record when it is `kCompleted` (the source asserts the front is
never `kStarted`; a non-completed front makes no progress). -/
def sodLoop : Nat → GState → Key → Nat → GState × SodLoopResult
  | 0, s, _, _ => (s, .blocked)
  | fuel + 1, s, k, required =>
      if hasSpace s.disk_store required || !s.running then (s, .exitTop)
      else
        match findWithIdx (fun e => e.key == k) s.disk_store.index with
        | none => (s, .exitCancelled)
        | some (i, e) =>
            if e.state == StoringState.cancelled then
              ({ s with disk_store :=
                  { s.disk_store with index := s.disk_store.index.eraseIdx i } },
               .exitCancelled)
            else if s.kPopFunctor then
              match s.disk_store.index with
              | [] => (s, .blocked)
              | front :: _ =>
                  if front.state == StoringState.completed then
                    let rf := removeFile s front.key
                    match rf.2 with
                    | some er => (rf.1, .threw er)
                    | none =>
                        sodLoop fuel
                          { rf.1 with disk_store :=
                              { rf.1.disk_store with index := rf.1.disk_store.index.eraseIdx 0 } }
                          k required
                  else (s, .blocked)
            else (s, .blocked)

def stopRunning (s : GState) : GState := { s with running := false }

/-- Outcome of a pass through `StoreOnDisk`: finished, parked on the disk condition,
or thrown. -/
inductive SodOutcome where
  | doneOk
  | wait
  | threw (e : Err)
deriving DecidableEq

/-- Tail of `StoreOnDisk` after its wait loop exits: an early return when `running_`
is down; otherwise, unless cancelled, write the file, flip the matching `kStarted`
record to `kCompleted` if one is still there, and add the value size to `current`
(the addition is unconditional in the source). -/
def storeOnDiskFinish (s : GState) (k : Key) (v : Value) : SodLoopResult → GState × SodOutcome
  | .blocked => (s, .wait)
  | .threw e => (s, .threw e)
  | .exitCancelled => (s, .doneOk)
  | .exitTop =>
      if !s.running then (s, .doneOk)
      else
        let s1 := { s with files := fsWrite s.files k v }
        let s2 :=
          match findWithIdx
              (fun e => e.state == StoringState.started && e.key == k) s1.disk_store.index with
          | some (i, _) =>
              { s1 with disk_store := { s1.disk_store with
                  index := modifyIdx s1.disk_store.index i
                    (fun d => { d with state := StoringState.completed }) } }
          | none => s1
        ({ s2 with disk_store :=
            { s2.disk_store with current := s2.disk_store.current + v.length } },
         .doneOk)

/-- StoreOnDisk from its entry: the `CannotExceedLimit` check precedes the record
append; then the record is appended `kStarted` and the wait loop runs. -/
def storeOnDiskEnter (s : GState) (k : Key) (v : Value) : GState × SodOutcome :=
  if v.length > s.disk_store.max then
    (stopRunning s, .threw Err.cannotExceedLimit)
  else
    let s1 := { s with disk_store :=
        { s.disk_store with index := s.disk_store.index ++ [⟨k, StoringState.started⟩] } }
    let p := sodLoop (s1.disk_store.index.length + 1) s1 k v.length
    storeOnDiskFinish p.1 k v p.2

/-- Resumption of a thread parked on the disk condition inside `WaitForSpaceOnDisk`. -/
def storeOnDiskResume (s : GState) (k : Key) (v : Value) : GState × SodOutcome :=
  let p := sodLoop (s.disk_store.index.length + 1) s k v.length
  storeOnDiskFinish p.1 k v p.2

/-- Result of the `WaitForSpaceInMemory` loop up to its next suspension. -/
inductive WmlResult where
  | space
  | notRunning
  | blocked
deriving DecidableEq

/-- WaitForSpaceInMemory: while there is no room, find a `kCompleted` removal candidate
(the condition wakes on a candidate, on room, or on shutdown), return on shutdown
before erasing, else erase the candidate and retry. -/
def waitMemLoop : Nat → GState → Nat → GState × WmlResult
  | 0, s, _ => (s, .blocked)
  | fuel + 1, s, required =>
      if hasSpace s.memory_store required then (s, .space)
      else if !s.running then (s, .notRunning)
      else
        match findWithIdx
            (fun e => e.also_on_disk == StoringState.completed) s.memory_store.index with
        | some (i, e) =>
            waitMemLoop fuel
              { s with memory_store := { s.memory_store with
                  current := s.memory_store.current - e.value.length
                  index := s.memory_store.index.eraseIdx i } } required
        | none => (s, .blocked)

/-- The `worker_.get()` call in `StoreInMemory`: it resolves only once the worker
future is ready (or was already taken); `some r` is its outcome, `none` means the
caller must block holding the memory and worker mutexes. -/
def joinWorkerResult (s : GState) : Option (Option Err) :=
  if s.futureTaken then some none else workerFinished s.worker

/-- State after a resolved `worker_.get()`: the future is consumed. -/
def joinWorkerState (s : GState) : GState :=
  if s.futureTaken then s
  else
    match workerFinished s.worker with
    | some _ => { s with futureTaken := true }
    | none => s

/-- Outcome of `StoreInMemory`: `toDisk` when the value exceeds the memory max (the
caller then runs `StoreOnDisk` inline), `stored` on append, `parked` on the memory
condition, `joinNow` when `running_` went down during the wait. -/
inductive SimOutcome where
  | toDisk
  | stored
  | parked
  | joinNow
deriving DecidableEq

/-- StoreInMemory: oversized values go to the disk path; otherwise wait for room,
then append the entry with `also_on_disk = kNotStarted` unless `running_` went down. -/
def storeInMemory (s : GState) (k : Key) (v : Value) : GState × SimOutcome :=
  if v.length > s.memory_store.max then (s, .toDisk)
  else
    let w := waitMemLoop (s.memory_store.index.length + 1) s v.length
    match w.2 with
    | .blocked => (w.1, .parked)
    | _ =>
        if !w.1.running then (w.1, .joinNow)
        else
          ({ w.1 with memory_store := { w.1.memory_store with
               current := w.1.memory_store.current + v.length
               index := w.1.memory_store.index ++ [⟨k, v, StoringState.notStarted⟩] } },
           .stored)

/-- Store: speculative `Delete` with every exception swallowed, worker check, then the
memory or inline-disk path. -/
def storeStart (s : GState) (i : Nat) (k : Key) (v : Value) : GState :=
  let s1 := (deleteOp s k).1
  let cw := checkWorker s1
  match cw.2 with
  | some e => setClient cw.1 i (.ret (.bad e))
  | none =>
      let sim := storeInMemory cw.1 k v
      match sim.2 with
      | .stored => setClient sim.1 i (.ret (.good none))
      | .parked => setClient sim.1 i (.sMemWait k v)
      | .joinNow =>
          match joinWorkerResult sim.1 with
          | some (some e) => setClient (joinWorkerState sim.1) i (.ret (.bad e))
          | some none => setClient (joinWorkerState sim.1) i (.ret (.good none))
          | none => setClient sim.1 i (.sJoin k v)
      | .toDisk =>
          let sod := storeOnDiskEnter sim.1 k v
          match sod.2 with
          | .doneOk => setClient sod.1 i (.ret (.good none))
          | .threw e => setClient sod.1 i (.ret (.bad e))
          | .wait => setClient sod.1 i (.sWaitDisk k v)

/-- Get: worker check; memory hit returns the value by copy; otherwise the disk record
decides (missing or cancelled throws `no_such_element`, started parks on the disk
condition, completed reads the spill file). -/
def getStart (s : GState) (i : Nat) (k : Key) : GState :=
  let cw := checkWorker s
  match cw.2 with
  | some e => setClient cw.1 i (.ret (.bad e))
  | none =>
      match cw.1.memory_store.index.find? (fun e => e.key == k) with
      | some e => setClient cw.1 i (.ret (.good (some e.value)))
      | none =>
          match cw.1.disk_store.index.find? (fun e => e.key == k) with
          | none => setClient cw.1 i (.ret (.bad Err.noSuchElement))
          | some d =>
              if d.state == StoringState.cancelled then
                setClient cw.1 i (.ret (.bad Err.noSuchElement))
              else if d.state == StoringState.started then
                setClient cw.1 i (.gWait k)
              else
                match fsLookup cw.1.files k with
                | some v => setClient cw.1 i (.ret (.good (some v)))
                | none => setClient cw.1 i (.ret (.bad Err.filesystemIoError))

/-- Delete as a public operation. -/
def deleteStart (s : GState) (i : Nat) (k : Key) : GState :=
  let d := deleteOp s k
  match d.2 with
  | some e => setClient d.1 i (.ret (.bad e))
  | none => setClient d.1 i (.ret (.good none))

/-- SetMaxMemoryUsage: reject a new memory max above the disk max. -/
def setMaxMemoryUsage (s : GState) (i : Nat) (n : Nat) : GState :=
  if n > s.disk_store.max then setClient s i (.ret (.bad Err.invalidParameter))
  else setClient { s with memory_store := { s.memory_store with max := n } } i
    (.ret (.good none))

/-- SetMaxDiskUsage: reject a new disk max below the memory max. -/
def setMaxDiskUsage (s : GState) (i : Nat) (n : Nat) : GState :=
  if s.memory_store.max > n then setClient s i (.ret (.bad Err.invalidParameter))
  else setClient { s with disk_store := { s.disk_store with max := n } } i
    (.ret (.good none))

/-- Resumption of a client parked in the memory-room wait of `Store`. -/
def resumeMemWaitStep (s : GState) (i : Nat) (k : Key) (v : Value) : GState :=
  let w := waitMemLoop (s.memory_store.index.length + 1) s v.length
  match w.2 with
  | .blocked => setClient w.1 i (.sMemWait k v)
  | _ =>
      if !w.1.running then
        match joinWorkerResult w.1 with
        | some (some e) => setClient (joinWorkerState w.1) i (.ret (.bad e))
        | some none => setClient (joinWorkerState w.1) i (.ret (.good none))
        | none => setClient w.1 i (.sJoin k v)
      else
        setClient
          { w.1 with memory_store := { w.1.memory_store with
              current := w.1.memory_store.current + v.length
              index := w.1.memory_store.index ++ [⟨k, v, StoringState.notStarted⟩] } }
          i (.ret (.good none))

/-- Resumption of a client blocked in `worker_.get()`. -/
def resumeJoinStep (s : GState) (i : Nat) : GState :=
  match joinWorkerResult s with
  | some (some e) => setClient (joinWorkerState s) i (.ret (.bad e))
  | some none => setClient (joinWorkerState s) i (.ret (.good none))
  | none => s

/-- Resumption of a client parked in its inline `StoreOnDisk` disk-room wait. -/
def resumeDiskWaitStep (s : GState) (i : Nat) (k : Key) (v : Value) : GState :=
  let p := storeOnDiskResume s k v
  match p.2 with
  | .doneOk => setClient p.1 i (.ret (.good none))
  | .threw e => setClient p.1 i (.ret (.bad e))
  | .wait => p.1

/-- Resumption of a client parked in `Get` while the record was `kStarted`: the wait
predicate passes once the record is gone or no longer started, then
`FindAndThrowIfCancelled` reruns and the file is read. -/
def resumeGetWaitStep (s : GState) (i : Nat) (k : Key) : GState :=
  match s.disk_store.index.find? (fun e => e.key == k) with
  | none => setClient s i (.ret (.bad Err.noSuchElement))
  | some d =>
      if d.state == StoringState.started then s
      else if d.state == StoringState.cancelled then
        setClient s i (.ret (.bad Err.noSuchElement))
      else
        match fsLookup s.files k with
        | some v => setClient s i (.ret (.good (some v)))
        | none => setClient s i (.ret (.bad Err.filesystemIoError))

/-- Worker at the top of `CopyQueueToDisk`: exit on shutdown, else pick the oldest
memory-only entry, flip it to `kStarted`, take the disk lock and run `StoreOnDisk`. -/
def workerIdleStep (s : GState) : GState :=
  if !s.running then { s with worker := .done }
  else
    match findWithIdx
        (fun e => e.also_on_disk == StoringState.notStarted) s.memory_store.index with
    | none => s
    | some (i, e) =>
        let s1 := { s with memory_store := { s.memory_store with
            index := modifyIdx s.memory_store.index i
              (fun m => { m with also_on_disk := StoringState.started }) } }
        let p := storeOnDiskEnter s1 e.key e.value
        match p.2 with
        | .doneOk => { p.1 with worker := .mark e.key }
        | .wait => { p.1 with worker := .waitDisk e.key e.value }
        | .threw er => { p.1 with worker := .failed er }

/-- Worker parked in `WaitForSpaceOnDisk`. -/
def workerWaitDiskStep (s : GState) (k : Key) (v : Value) : GState :=
  let p := storeOnDiskResume s k v
  match p.2 with
  | .doneOk => { p.1 with worker := .mark k }
  | .wait => p.1
  | .threw er => { p.1 with worker := .failed er }

/-- Worker tail of a spill pass: re-acquire the memory lock and, if an entry with the
spilled key still exists, flip its `also_on_disk` to `kCompleted`. -/
def workerMarkStep (s : GState) (k : Key) : GState :=
  let s1 :=
    match findWithIdx (fun e => e.key == k) s.memory_store.index with
    | some (i, _) =>
        { s with memory_store := { s.memory_store with
            index := modifyIdx s.memory_store.index i
              (fun m => { m with also_on_disk := StoringState.completed }) } }
    | none => s
  { s1 with worker := .idle }

/-- One atomic section of the worker, chosen by its control point.  Sections needing
the memory mutex stall while a client holds it across `worker_.get()`. -/
def workerStep (s : GState) : GState :=
  match s.worker with
  | .idle => if memHeld s then s else workerIdleStep s
  | .waitDisk k v => workerWaitDiskStep s k v
  | .mark k => if memHeld s then s else workerMarkStep s k
  | .done => s
  | .failed _ => s

/-- Scheduler actions: public-operation invocations by a client thread, resumptions of
parked threads, acknowledgement of a finished call, and one worker section. -/
inductive Action where
  | invStore (i : Nat) (k : Key) (v : Value)
  | invGet (i : Nat) (k : Key)
  | invDelete (i : Nat) (k : Key)
  | invSetMemMax (i : Nat) (n : Nat)
  | invSetDiskMax (i : Nat) (n : Nat)
  | resumeMemWait (i : Nat)
  | resumeJoin (i : Nat)
  | resumeDiskWait (i : Nat)
  | resumeGetWait (i : Nat)
  | ack (i : Nat)
  | worker
deriving DecidableEq

/-- The transition function: one atomic lock section of one thread. -/
def step (s : GState) (a : Action) : GState :=
  match a with
  | .worker => workerStep s
  | .invStore i k v =>
      if clientAt s i == some .idle && !memHeld s then storeStart s i k v else s
  | .invGet i k =>
      if clientAt s i == some .idle && !memHeld s then getStart s i k else s
  | .invDelete i k =>
      if clientAt s i == some .idle && !memHeld s then deleteStart s i k else s
  | .invSetMemMax i n =>
      if clientAt s i == some .idle && !memHeld s then setMaxMemoryUsage s i n else s
  | .invSetDiskMax i n =>
      if clientAt s i == some .idle then setMaxDiskUsage s i n else s
  | .resumeMemWait i =>
      if memHeld s then s
      else
        match clientAt s i with
        | some (.sMemWait k v) => resumeMemWaitStep s i k v
        | _ => s
  | .resumeJoin i =>
      match clientAt s i with
      | some (.sJoin _ _) => resumeJoinStep s i
      | _ => s
  | .resumeDiskWait i =>
      match clientAt s i with
      | some (.sWaitDisk k v) => resumeDiskWaitStep s i k v
      | _ => s
  | .resumeGetWait i =>
      match clientAt s i with
      | some (.gWait k) => resumeGetWaitStep s i k
      | _ => s
  | .ack i =>
      match clientAt s i with
      | some (.ret _) => setClient s i .idle
      | _ => s

/-- The freshly constructed buffer state (spill directory created and probed). -/
def initState (memory_max disk_max : Nat) (pop : Bool) (nClients : Nat) : GState :=
  { memory_store := ⟨memory_max, 0, []⟩
    disk_store := ⟨disk_max, 0, []⟩
    files := []
    running := true
    kPopFunctor := pop
    futureTaken := false
    worker := .idle
    clients := List.replicate nClients .idle }

/-- Construction (`Init`): `memory.max > disk.max` is rejected with `invalid_parameter`
before the worker starts; the filesystem probe is modelled as succeeding. -/
def initBuffer (memory_max disk_max : Nat) (pop : Bool) (nClients : Nat) :
    Except Err GState :=
  if memory_max > disk_max then Except.error Err.invalidParameter
  else Except.ok (initState memory_max disk_max pop nClients)

/-- Run a sequence of scheduler actions. -/
def runActs (s : GState) (l : List Action) : GState := l.foldl step s

/-- Iterate worker sections. -/
def workerIter : Nat → GState → GState
  | 0, s => s
  | n + 1, s => workerIter n (workerStep s)

/-- Sum of value sizes over the memory tier. -/
def memSum (s : GState) : Nat :=
  (s.memory_store.index.map (fun e => e.value.length)).sum

/-- Sum of spill-file sizes over exactly the `kCompleted` disk records. -/
def diskCompletedSum (s : GState) : Nat :=
  ((s.disk_store.index.filter (fun e => e.state == StoringState.completed)).map
    (fun e =>
      match fsLookup s.files e.key with
      | some v => v.length
      | none => 0)).sum

end DataBufferModel

namespace DataBufferModel

/-! ## Concrete schedules used to separate claims from the code

Every schedule below is a legitimate interleaving of lock sections of the C++ code:
client sections run only while no other thread holds the locks they need, and the
worker's parked phases correspond to its condition-variable waits. -/

/-- Buffer with `memory.max = 2`, `disk.max = 2`, no pop functor, one client. -/
def s0c1 : GState := initState 2 2 false 1

/-- Schedule: store key 0 (2 bytes), let the worker spill and mark it; store key 1
(2 bytes, evicting key 0 from memory); the worker picks key 1, appends its disk
record and parks in the disk-room wait (disk full); the client deletes key 1
(record goes `kCancelled`) and then key 0 (making disk room); the worker wakes,
sees room, and runs the write-and-account tail for the cancelled record. -/
def c1Acts : List Action :=
  [ .invStore 0 0 [9, 9], .ack 0,
    .worker,
    .worker,
    .invStore 0 1 [8, 8], .ack 0,
    .worker,
    .invDelete 0 1, .ack 0,
    .invDelete 0 0, .ack 0,
    .worker ]

def c1Final : GState := runActs s0c1 c1Acts

/-- Buffer with `memory.max = 4`, `disk.max = 4`, no pop functor, one client. -/
def s0c2 : GState := initState 4 4 false 1

/-- Schedule: store key 0, let the worker spill it (worker now between releasing the
disk lock and re-acquiring the memory lock, control point `mark 0`); the client
deletes key 0 (file and record removed) and re-stores key 0 with a new value.  The
worker's pending end-of-spill marking is the next step. -/
def c2Acts : List Action :=
  [ .invStore 0 0 [1, 2], .ack 0,
    .worker,
    .invDelete 0 0, .ack 0,
    .invStore 0 0 [3, 4, 5], .ack 0 ]

def c2Pre : GState := runActs s0c2 c2Acts

def c2Post : GState := step c2Pre Action.worker

/-- Buffer with `memory.max = 2`, `disk.max = 2`, no pop functor, two clients. -/
def s0c4 : GState := initState 2 2 false 2

/-- Schedule: fill disk with key 10, fill memory with key 11 whose spill parks in the
disk-room wait; client 1's store of key 12 parks in the memory-room wait (the only
memory entry is `kStarted`); client 0 stores a 3-byte value, which takes the inline
disk path and dies with `CannotExceedLimit`, clearing `running_`; the worker then
unwinds and exits cleanly.  Client 1 is still parked. -/
def c4Acts : List Action :=
  [ .invStore 0 10 [1, 1], .ack 0,
    .worker, .worker,
    .invStore 0 11 [2, 2], .ack 0,
    .worker,
    .invStore 1 12 [3, 3],
    .invStore 0 13 [4, 4, 4], .ack 0,
    .worker,
    .worker,
    .worker ]

def c4Pre : GState := runActs s0c4 c4Acts

def c4Post : GState := step c4Pre (Action.resumeMemWait 1)

end DataBufferModel

namespace DataBufferModel

/-! ## Further definitions used by the claim statements -/

/-- Order of the migration states along `kNotStarted -> kStarted -> kCompleted`
(`kCancelled` never occurs on memory entries; it sits below `kCompleted`). -/
def rank : StoringState → Nat
  | .notStarted => 0
  | .started => 1
  | .cancelled => 2
  | .completed => 3

/-- Every memory entry after a transition is either a fresh `kNotStarted` insertion or
an entry of the previous state with the same key and value whose migration state did
not move backwards. -/
def MemAdvances (l l2 : List MemoryElement) : Prop :=
  ∀ e2 ∈ l2, e2.also_on_disk = StoringState.notStarted ∨
    ∃ e ∈ l, e.key = e2.key ∧ e.value = e2.value ∧ rank e.also_on_disk ≤ rank e2.also_on_disk

/-- The worker's stored fatal error, still unconsumed. -/
def pendingWorkerErr (s : GState) : Option Err :=
  if s.futureTaken then none
  else
    match s.worker with
    | .failed e => some e
    | _ => none

/-- Code point of one hex digit, as produced by `HexEncode` ('0'-'9' then 'a'-'f'). -/
def hexDigitCode (n : Nat) : Nat := if n < 10 then 48 + n else 87 + n

/-- HexEncode of a byte string: each byte yields its two hex digit characters,
modelled by their code points. -/
def hexEncode : List Nat → List Nat
  | [] => []
  | b :: bs => hexDigitCode (b / 16) :: hexDigitCode (b % 16) :: hexEncode bs

/-- GetFilename (default key encoding): `kDiskBuffer_ / HexEncode(key)`, the path as a
code point sequence with 47 the separator. -/
def getFilename (kDiskBuffer : List Nat) (key : List Nat) : List Nat :=
  kDiskBuffer ++ 47 :: hexEncode key

/-! Parametric states reached by the sequential programs of the round-trip laws:
`shA`/`shB`/`shC` are the states after `put(k, v1)` under every worker schedule,
the primed family the states after a subsequent `put(k, v2)`, and the `shDel`
family the states after a subsequent `remove(k)`. -/

/-- After `put(k, v1)`: worker not yet started on the entry. -/
def shA (mm dm : Nat) (k : Key) (v1 : Value) : GState :=
  { memory_store := ⟨mm, v1.length, [⟨k, v1, StoringState.notStarted⟩]⟩
    disk_store := ⟨dm, 0, []⟩
    files := []
    running := true
    kPopFunctor := false
    futureTaken := false
    worker := .idle
    clients := [.idle] }

/-- After `put(k, v1)`: worker has spilled the entry and is about to mark it. -/
def shB (mm dm : Nat) (k : Key) (v1 : Value) : GState :=
  { memory_store := ⟨mm, v1.length, [⟨k, v1, StoringState.started⟩]⟩
    disk_store := ⟨dm, v1.length, [⟨k, StoringState.completed⟩]⟩
    files := [(k, v1)]
    running := true
    kPopFunctor := false
    futureTaken := false
    worker := .mark k
    clients := [.idle] }

/-- After `put(k, v1)`: spill complete and marked. -/
def shC (mm dm : Nat) (k : Key) (v1 : Value) : GState :=
  { memory_store := ⟨mm, v1.length, [⟨k, v1, StoringState.completed⟩]⟩
    disk_store := ⟨dm, v1.length, [⟨k, StoringState.completed⟩]⟩
    files := [(k, v1)]
    running := true
    kPopFunctor := false
    futureTaken := false
    worker := .idle
    clients := [.idle] }

/-- After the second `put(k, v2)`, worker idle and entry unspilled. -/
def shA2 (mm dm : Nat) (k : Key) (v2 : Value) : GState :=
  { memory_store := ⟨mm, v2.length, [⟨k, v2, StoringState.notStarted⟩]⟩
    disk_store := ⟨dm, 0, []⟩
    files := []
    running := true
    kPopFunctor := false
    futureTaken := false
    worker := .idle
    clients := [.idle] }

/-- After the second `put(k, v2)` issued between the worker's spill of `v1` and its
end-of-spill marking: the marking is still pending. -/
def shB2 (mm dm : Nat) (k : Key) (v2 : Value) : GState :=
  { memory_store := ⟨mm, v2.length, [⟨k, v2, StoringState.notStarted⟩]⟩
    disk_store := ⟨dm, 0, []⟩
    files := []
    running := true
    kPopFunctor := false
    futureTaken := false
    worker := .mark k
    clients := [.idle] }

/-- Worker has spilled `v2` and is about to mark it. -/
def shD2 (mm dm : Nat) (k : Key) (v2 : Value) : GState :=
  { memory_store := ⟨mm, v2.length, [⟨k, v2, StoringState.started⟩]⟩
    disk_store := ⟨dm, v2.length, [⟨k, StoringState.completed⟩]⟩
    files := [(k, v2)]
    running := true
    kPopFunctor := false
    futureTaken := false
    worker := .mark k
    clients := [.idle] }

/-- Worker has spilled `v2` and marked it. -/
def shE2 (mm dm : Nat) (k : Key) (v2 : Value) : GState :=
  { memory_store := ⟨mm, v2.length, [⟨k, v2, StoringState.completed⟩]⟩
    disk_store := ⟨dm, v2.length, [⟨k, StoringState.completed⟩]⟩
    files := [(k, v2)]
    running := true
    kPopFunctor := false
    futureTaken := false
    worker := .idle
    clients := [.idle] }

/-- The pending end-of-spill marking of `v1` landed on the fresh `v2` entry: the entry
reads `kCompleted` although `v2` was never written (the worker then stays idle). -/
def shF2 (mm dm : Nat) (k : Key) (v2 : Value) : GState :=
  { memory_store := ⟨mm, v2.length, [⟨k, v2, StoringState.completed⟩]⟩
    disk_store := ⟨dm, 0, []⟩
    files := []
    running := true
    kPopFunctor := false
    futureTaken := false
    worker := .idle
    clients := [.idle] }

/-- After an inline-disk `put(k, v)` with `memory.max < |v| <= disk.max`: the caller
ran `StoreOnDisk` on its own thread, so the value lives only on disk with a
`kCompleted` record and the memory tier is empty.  `w` is the worker control point
(`mark k` when the put overlapped a pending end-of-spill marking of the key). -/
def shG (mm dm : Nat) (k : Key) (v : Value) (w : WorkerPC) : GState :=
  { memory_store := ⟨mm, 0, []⟩
    disk_store := ⟨dm, v.length, [⟨k, StoringState.completed⟩]⟩
    files := [(k, v)]
    running := true
    kPopFunctor := false
    futureTaken := false
    worker := w
    clients := [.idle] }

/-- After `remove(k)`, both tiers empty. -/
def shDel (mm dm : Nat) (w : WorkerPC) : GState :=
  { memory_store := ⟨mm, 0, []⟩
    disk_store := ⟨dm, 0, []⟩
    files := []
    running := true
    kPopFunctor := false
    futureTaken := false
    worker := w
    clients := [.idle] }

/-! ## Theorems -/

/-- C1: the tier-accounting invariant fails on the code.  In the reachable state
`c1Final` (public stores and deletes interleaved with spill-worker sections from a
fresh buffer), the disk tier's `current` is 2 although no disk record is
`kCompleted`: `StoreOnDisk` adds the value size to `current` after its room wait even
when the record was concurrently cancelled, and leaves the orphaned spill file behind.
The memory half of the invariant does hold in this state. -/
theorem c1_disk_accounting_breaks :
    runActs s0c1 c1Acts = c1Final ∧
    c1Final.disk_store.current = 2 ∧
    diskCompletedSum c1Final = 0 ∧
    c1Final.disk_store.index = [⟨1, StoringState.cancelled⟩] ∧
    fsLookup c1Final.files 1 = some [8, 8] ∧
    c1Final.memory_store.current = memSum c1Final := by
  refine ⟨rfl, ?_, ?_, ?_, ?_, ?_⟩ <;> decide

/-- C2: refuted as stated.  In the reachable state `c2Pre` the single memory entry is
`(0, [3,4,5], kNotStarted)` (key 0 was deleted and re-stored while the worker's
end-of-spill marking for the old value was pending); the very next worker section —
the end-of-spill marking of `CopyQueueToDisk` — moves that entry directly from
`kNotStarted` to `kCompleted`, and the entry's payload `[3,4,5]` is nowhere on disk
(the marking matches by key, not by the entry it wrote). -/
theorem c2_mark_by_key_counterexample :
    runActs s0c2 c2Acts = c2Pre ∧
    c2Pre.memory_store.index = [⟨0, [3, 4, 5], StoringState.notStarted⟩] ∧
    step c2Pre Action.worker = c2Post ∧
    c2Post.memory_store.index = [⟨0, [3, 4, 5], StoringState.completed⟩] ∧
    fsLookup c2Post.files 0 = none ∧
    c2Post.disk_store.index = [] := by
  refine ⟨rfl, ?_, rfl, ?_, ?_, ?_⟩ <;> decide

/-- C4: refuted as stated.  In the reachable state `c4Pre`, client 1 is parked in the
memory-room wait of `put(12, [3,3])`, `running_` is false (another client's inline
`StoreOnDisk` died with `CannotExceedLimit`), and the worker exited cleanly, so no
stored fatal error exists.  The resumption returns success (`good none`) — not
`FilesystemIoError` — and key 12 was never stored in either tier. -/
theorem c4_silent_success_counterexample :
    runActs s0c4 c4Acts = c4Pre ∧
    clientAt c4Pre 1 = some (ClientPC.sMemWait 12 [3, 3]) ∧
    c4Pre.running = false ∧
    c4Pre.worker = WorkerPC.done ∧
    c4Pre.futureTaken = false ∧
    step c4Pre (Action.resumeMemWait 1) = c4Post ∧
    clientAt c4Post 1 = some (ClientPC.ret (OpResult.good none)) ∧
    c4Post.memory_store.index = [⟨11, [2, 2], StoringState.completed⟩] ∧
    c4Post.disk_store.index = [⟨10, StoringState.completed⟩, ⟨11, StoringState.started⟩] := by
  refine ⟨rfl, ?_, ?_, ?_, ?_, rfl, ?_, ?_, ?_⟩ <;> decide

end DataBufferModel

namespace DataBufferModel

/-! ## List helper lemmas -/

theorem mem_of_eraseIdx {α : Type} : ∀ {l : List α} {i : Nat} {a : α}, a ∈ l.eraseIdx i → a ∈ l
  | [], _, _, h => by simp [List.eraseIdx] at h
  | b :: t, 0, a, h => by
      rw [List.eraseIdx_cons_zero] at h
      exact List.mem_cons_of_mem b h
  | b :: t, i + 1, a, h => by
      rw [List.eraseIdx_cons_succ] at h
      rcases List.mem_cons.mp h with h | h
      · exact h ▸ List.mem_cons_self b t
      · exact List.mem_cons_of_mem b (mem_of_eraseIdx h)

theorem findWithIdx_mem {α : Type} {p : α → Bool} {l : List α} {i : Nat} {a : α}
    (h : findWithIdx p l = some (i, a)) : a ∈ l ∧ p a = true := by
  induction l generalizing i with
  | nil => simp [findWithIdx] at h
  | cons b t ih =>
      rw [findWithIdx] at h
      split at h
      · simp only [Option.some.injEq, Prod.mk.injEq] at h
        obtain ⟨_, ha⟩ := h
        subst ha
        exact ⟨List.mem_cons_self b t, by assumption⟩
      · cases hf : findWithIdx p t with
        | none => rw [hf] at h; simp at h
        | some ja =>
            obtain ⟨j, c⟩ := ja
            rw [hf] at h
            simp only [Option.map_some', Option.some.injEq, Prod.mk.injEq] at h
            obtain ⟨_, ha⟩ := h
            subst ha
            obtain ⟨hm, hp⟩ := ih hf
            exact ⟨List.mem_cons_of_mem b hm, hp⟩

theorem mem_modifyIdx_of_find {α : Type} {p : α → Bool} {f : α → α} :
    ∀ {l : List α} {i : Nat} {a : α}, findWithIdx p l = some (i, a) →
      ∀ b ∈ modifyIdx l i f, b ∈ l ∨ (b = f a ∧ p a = true)
  | [], i, a, h => by simp [findWithIdx] at h
  | c :: t, i, a, h => by
      rw [findWithIdx] at h
      split at h
      · rename_i hc
        simp only [Option.some.injEq, Prod.mk.injEq] at h
        obtain ⟨hi, ha⟩ := h
        subst ha
        subst hi
        intro b hb
        rw [modifyIdx] at hb
        rcases List.mem_cons.mp hb with h | h
        · exact Or.inr ⟨h, hc⟩
        · exact Or.inl (List.mem_cons_of_mem _ h)
      · cases hf : findWithIdx p t with
        | none => rw [hf] at h; simp at h
        | some ja =>
            obtain ⟨j, c2⟩ := ja
            rw [hf] at h
            simp only [Option.map_some', Option.some.injEq, Prod.mk.injEq] at h
            obtain ⟨hi, ha⟩ := h
            subst ha
            subst hi
            intro b hb
            rw [modifyIdx] at hb
            rcases List.mem_cons.mp hb with h | h
            · exact Or.inl (h ▸ List.mem_cons_self c t)
            · rcases mem_modifyIdx_of_find hf b h with h2 | h2
              · exact Or.inl (List.mem_cons_of_mem c h2)
              · exact Or.inr h2

/-! ## Plumbing: sections that leave the memory tier untouched -/

theorem checkWorker_memory (s : GState) : ((checkWorker s).1).memory_store = s.memory_store := by
  unfold checkWorker
  split
  · split <;> rfl
  · split <;> first | rfl | (split <;> rfl)

theorem removeFile_memory (s : GState) (k : Key) :
    ((removeFile s k).1).memory_store = s.memory_store := by
  unfold removeFile
  split <;> rfl

theorem deleteFromDisk_memory (s : GState) (k : Key) :
    ((deleteFromDisk s k).1).memory_store = s.memory_store := by
  unfold deleteFromDisk
  split
  · rfl
  · split
    · rfl
    · dsimp only
      split
      · exact removeFile_memory s k
      · exact removeFile_memory s k
    · rfl

theorem sodLoop_memory : ∀ (fuel : Nat) (s : GState) (k : Key) (r : Nat),
    ((sodLoop fuel s k r).1).memory_store = s.memory_store
  | 0, s, k, r => rfl
  | fuel + 1, s, k, r => by
      rw [sodLoop]
      split
      · rfl
      · split
        · rfl
        · split
          · rfl
          · split
            · split
              · rfl
              · split
                · dsimp only
                  split
                  · exact removeFile_memory s _
                  · rw [sodLoop_memory fuel]
                    exact removeFile_memory s _
                · rfl
            · rfl

theorem storeOnDiskFinish_memory (s : GState) (k : Key) (v : Value) (r : SodLoopResult) :
    ((storeOnDiskFinish s k v r).1).memory_store = s.memory_store := by
  unfold storeOnDiskFinish
  split <;> try rfl
  split
  · rfl
  · dsimp only
    split <;> rfl

theorem storeOnDiskEnter_memory (s : GState) (k : Key) (v : Value) :
    ((storeOnDiskEnter s k v).1).memory_store = s.memory_store := by
  unfold storeOnDiskEnter
  split
  · rfl
  · rw [storeOnDiskFinish_memory, sodLoop_memory]

theorem storeOnDiskResume_memory (s : GState) (k : Key) (v : Value) :
    ((storeOnDiskResume s k v).1).memory_store = s.memory_store := by
  unfold storeOnDiskResume
  rw [storeOnDiskFinish_memory, sodLoop_memory]

theorem joinWorkerState_memory (s : GState) :
    (joinWorkerState s).memory_store = s.memory_store := by
  unfold joinWorkerState
  split
  · rfl
  · split <;> rfl

theorem setClient_memory (s : GState) (i : Nat) (c : ClientPC) :
    (setClient s i c).memory_store = s.memory_store := rfl

end DataBufferModel

namespace DataBufferModel

/-! ## Migration-state monotonicity -/

theorem rank_le_three (st : StoringState) : rank st ≤ 3 := by
  cases st <;> simp [rank]

theorem memAdvances_of_sub {l l2 : List MemoryElement} (h : ∀ e ∈ l2, e ∈ l) :
    MemAdvances l l2 := by
  intro e2 he2
  exact Or.inr ⟨e2, h e2 he2, rfl, rfl, Nat.le_refl _⟩

theorem memAdvances_refl (l : List MemoryElement) : MemAdvances l l :=
  memAdvances_of_sub (fun _ he => he)

theorem memAdvances_of_sub_left {l1 l2 l3 : List MemoryElement}
    (h12 : ∀ e ∈ l2, e ∈ l1) (h23 : MemAdvances l2 l3) : MemAdvances l1 l3 := by
  intro e3 he3
  rcases h23 e3 he3 with h | ⟨e, he, hk, hv, hr⟩
  · exact Or.inl h
  · exact Or.inr ⟨e, h12 e he, hk, hv, hr⟩

theorem memAdvances_append_ns {l l2 : List MemoryElement} (h : ∀ e ∈ l2, e ∈ l)
    (k : Key) (v : Value) :
    MemAdvances l (l2 ++ [⟨k, v, StoringState.notStarted⟩]) := by
  intro e2 he2
  rcases List.mem_append.mp he2 with h2 | h2
  · exact Or.inr ⟨e2, h e2 h2, rfl, rfl, Nat.le_refl _⟩
  · left
    have hx : e2 = (⟨k, v, StoringState.notStarted⟩ : MemoryElement) := by simpa using h2
    rw [hx]

theorem deleteFromMemory_sub (s : GState) (k : Key) :
    ∀ e ∈ ((deleteFromMemory s k).1).memory_store.index, e ∈ s.memory_store.index := by
  unfold deleteFromMemory
  split
  · intro e he
    exact mem_of_eraseIdx he
  · intro e he
    exact he

theorem waitMemLoop_sub : ∀ (fuel : Nat) (s : GState) (r : Nat),
    ∀ e ∈ ((waitMemLoop fuel s r).1).memory_store.index, e ∈ s.memory_store.index
  | 0, _, _ => fun _ he => he
  | fuel + 1, s, r => by
      rw [waitMemLoop]
      split
      · exact fun _ he => he
      · split
        · exact fun _ he => he
        · split
          · intro e he
            exact mem_of_eraseIdx (waitMemLoop_sub fuel _ r e he)
          · exact fun _ he => he

theorem deleteOp_sub (s : GState) (k : Key) :
    ∀ e ∈ ((deleteOp s k).1).memory_store.index, e ∈ s.memory_store.index := by
  unfold deleteOp
  dsimp only
  split
  · intro e he
    rw [checkWorker_memory] at he
    exact he
  · split
    · intro e he
      have h2 := deleteFromMemory_sub (checkWorker s).1 k e he
      rw [checkWorker_memory] at h2
      exact h2
    · intro e he
      rw [deleteFromDisk_memory] at he
      have h2 := deleteFromMemory_sub (checkWorker s).1 k e he
      rw [checkWorker_memory] at h2
      exact h2

theorem storeInMemory_adv (s : GState) (k : Key) (v : Value) :
    MemAdvances s.memory_store.index ((storeInMemory s k v).1).memory_store.index := by
  unfold storeInMemory
  split
  · exact memAdvances_refl _
  · dsimp only
    split
    · exact memAdvances_of_sub (waitMemLoop_sub _ s v.length)
    · split
      · exact memAdvances_of_sub (waitMemLoop_sub _ s v.length)
      · exact memAdvances_append_ns (waitMemLoop_sub _ s v.length) k v

theorem storeStart_adv (s : GState) (i : Nat) (k : Key) (v : Value) :
    MemAdvances s.memory_store.index (storeStart s i k v).memory_store.index := by
  have hsub : ∀ e ∈ ((checkWorker (deleteOp s k).1).1).memory_store.index,
      e ∈ s.memory_store.index := by
    intro e he
    rw [checkWorker_memory] at he
    exact deleteOp_sub s k e he
  have hadv : MemAdvances s.memory_store.index
      ((storeInMemory (checkWorker (deleteOp s k).1).1 k v).1).memory_store.index :=
    memAdvances_of_sub_left hsub (storeInMemory_adv _ k v)
  unfold storeStart
  dsimp only
  split
  · exact memAdvances_of_sub hsub
  · split
    · exact hadv
    · exact hadv
    · split
      · simp only [setClient_memory, joinWorkerState_memory]
        exact hadv
      · simp only [setClient_memory, joinWorkerState_memory]
        exact hadv
      · exact hadv
    · split
      · simp only [setClient_memory, storeOnDiskEnter_memory]
        exact hadv
      · simp only [setClient_memory, storeOnDiskEnter_memory]
        exact hadv
      · simp only [setClient_memory, storeOnDiskEnter_memory]
        exact hadv

theorem getStart_memory (s : GState) (i : Nat) (k : Key) :
    (getStart s i k).memory_store = s.memory_store := by
  unfold getStart
  dsimp only
  repeat' split
  all_goals rw [setClient_memory, checkWorker_memory]

theorem deleteStart_sub (s : GState) (i : Nat) (k : Key) :
    ∀ e ∈ (deleteStart s i k).memory_store.index, e ∈ s.memory_store.index := by
  unfold deleteStart
  dsimp only
  split
  · intro e he
    rw [setClient_memory] at he
    exact deleteOp_sub s k e he
  · intro e he
    rw [setClient_memory] at he
    exact deleteOp_sub s k e he

theorem setMaxMemoryUsage_index (s : GState) (i n : Nat) :
    (setMaxMemoryUsage s i n).memory_store.index = s.memory_store.index := by
  unfold setMaxMemoryUsage
  split <;> rfl

theorem setMaxDiskUsage_memory (s : GState) (i n : Nat) :
    (setMaxDiskUsage s i n).memory_store = s.memory_store := by
  unfold setMaxDiskUsage
  split <;> rfl

theorem resumeMemWaitStep_adv (s : GState) (i : Nat) (k : Key) (v : Value) :
    MemAdvances s.memory_store.index (resumeMemWaitStep s i k v).memory_store.index := by
  unfold resumeMemWaitStep
  dsimp only
  split
  · exact memAdvances_of_sub (waitMemLoop_sub _ s v.length)
  · split
    · split
      · simp only [setClient_memory, joinWorkerState_memory]
        exact memAdvances_of_sub (waitMemLoop_sub _ s v.length)
      · simp only [setClient_memory, joinWorkerState_memory]
        exact memAdvances_of_sub (waitMemLoop_sub _ s v.length)
      · exact memAdvances_of_sub (waitMemLoop_sub _ s v.length)
    · exact memAdvances_append_ns (waitMemLoop_sub _ s v.length) k v

theorem resumeJoinStep_memory (s : GState) (i : Nat) :
    (resumeJoinStep s i).memory_store = s.memory_store := by
  unfold resumeJoinStep
  split
  · rw [setClient_memory, joinWorkerState_memory]
  · rw [setClient_memory, joinWorkerState_memory]
  · rfl

theorem resumeDiskWaitStep_memory (s : GState) (i : Nat) (k : Key) (v : Value) :
    (resumeDiskWaitStep s i k v).memory_store = s.memory_store := by
  unfold resumeDiskWaitStep
  dsimp only
  split
  · rw [setClient_memory, storeOnDiskResume_memory]
  · rw [setClient_memory, storeOnDiskResume_memory]
  · rw [storeOnDiskResume_memory]

theorem resumeGetWaitStep_memory (s : GState) (i : Nat) (k : Key) :
    (resumeGetWaitStep s i k).memory_store = s.memory_store := by
  unfold resumeGetWaitStep
  repeat' split
  all_goals rfl

theorem workerIdleStep_adv (s : GState) :
    MemAdvances s.memory_store.index (workerIdleStep s).memory_store.index := by
  unfold workerIdleStep
  split
  · exact memAdvances_refl _
  · split
    · exact memAdvances_refl _
    · rename_i j e hf
      dsimp only
      split
      all_goals
        simp only [storeOnDiskEnter_memory]
        intro e2 he2
        rcases mem_modifyIdx_of_find hf e2 he2 with h | ⟨heq, hpred⟩
        · exact Or.inr ⟨e2, h, rfl, rfl, Nat.le_refl _⟩
        · subst heq
          have ha : e.also_on_disk = StoringState.notStarted := by simpa using hpred
          refine Or.inr ⟨e, (findWithIdx_mem hf).1, rfl, rfl, ?_⟩
          rw [ha]
          show rank StoringState.notStarted ≤ rank StoringState.started
          decide

theorem workerWaitDiskStep_memory (s : GState) (k : Key) (v : Value) :
    (workerWaitDiskStep s k v).memory_store = s.memory_store := by
  unfold workerWaitDiskStep
  dsimp only
  split
  all_goals rw [storeOnDiskResume_memory]

theorem workerMarkStep_adv (s : GState) (k : Key) :
    MemAdvances s.memory_store.index (workerMarkStep s k).memory_store.index := by
  unfold workerMarkStep
  dsimp only
  split
  · rename_i j a hf
    intro e2 he2
    rcases mem_modifyIdx_of_find hf e2 he2 with h | ⟨heq, hpred⟩
    · exact Or.inr ⟨e2, h, rfl, rfl, Nat.le_refl _⟩
    · subst heq
      exact Or.inr ⟨a, (findWithIdx_mem hf).1, rfl, rfl, rank_le_three _⟩
  · exact memAdvances_refl _

theorem workerStep_adv (s : GState) :
    MemAdvances s.memory_store.index (workerStep s).memory_store.index := by
  unfold workerStep
  split
  · split
    · exact memAdvances_refl _
    · exact workerIdleStep_adv s
  · rw [workerWaitDiskStep_memory]
    exact memAdvances_refl _
  · split
    · exact memAdvances_refl _
    · exact workerMarkStep_adv s _
  · exact memAdvances_refl _
  · exact memAdvances_refl _

end DataBufferModel

namespace DataBufferModel

/-- C2 (amended): across every atomic section of every public operation and of the
spill worker, memory-entry migration states never move backwards: every entry after a
step is either a fresh `kNotStarted` insertion or matches an entry of the previous
state (same key and value) whose state advanced or stayed, in the order
`kNotStarted -> kStarted -> kCompleted`.  (The original claim's stronger clauses —
no direct `kNotStarted` to `kCompleted` move, marking only the entry whose payload
was written — are refuted by `c2_mark_by_key_counterexample`.) -/
theorem c2_migration_state_monotone (s : GState) (a : Action) :
    MemAdvances s.memory_store.index ((step s a).memory_store.index) := by
  cases a with
  | invStore i k v =>
      simp only [step]
      split
      · exact storeStart_adv s i k v
      · exact memAdvances_refl _
  | invGet i k =>
      simp only [step]
      split
      · rw [getStart_memory]
        exact memAdvances_refl _
      · exact memAdvances_refl _
  | invDelete i k =>
      simp only [step]
      split
      · exact memAdvances_of_sub (deleteStart_sub s i k)
      · exact memAdvances_refl _
  | invSetMemMax i n =>
      simp only [step]
      split
      · rw [setMaxMemoryUsage_index]
        exact memAdvances_refl _
      · exact memAdvances_refl _
  | invSetDiskMax i n =>
      simp only [step]
      split
      · rw [setMaxDiskUsage_memory]
        exact memAdvances_refl _
      · exact memAdvances_refl _
  | resumeMemWait i =>
      simp only [step]
      split
      · exact memAdvances_refl _
      · split
        all_goals first
          | exact resumeMemWaitStep_adv s i _ _
          | exact memAdvances_refl _
  | resumeJoin i =>
      simp only [step]
      split
      all_goals first
        | (rw [resumeJoinStep_memory]; exact memAdvances_refl _)
        | exact memAdvances_refl _
  | resumeDiskWait i =>
      simp only [step]
      split
      all_goals first
        | (rw [resumeDiskWaitStep_memory]; exact memAdvances_refl _)
        | exact memAdvances_refl _
  | resumeGetWait i =>
      simp only [step]
      split
      all_goals first
        | (rw [resumeGetWaitStep_memory]; exact memAdvances_refl _)
        | exact memAdvances_refl _
  | ack i =>
      simp only [step]
      split
      all_goals exact memAdvances_refl _
  | worker => exact workerStep_adv s

end DataBufferModel

namespace DataBufferModel

/-! ## Small evaluation helpers -/

theorem get?_set_self {α : Type} : ∀ (l : List α) (i : Nat) (c : α) (x : α),
    l.get? i = some x → (l.set i c).get? i = some c
  | [], i, c, x, h => by simp at h
  | _ :: _, 0, _, _, _ => rfl
  | a :: t, i + 1, c, x, h => by
      show (t.set i c).get? i = some c
      exact get?_set_self t i c x h

theorem clientAt_setClient (s : GState) (i : Nat) (c : ClientPC) (x : ClientPC)
    (h : clientAt s i = some x) : clientAt (setClient s i c) i = some c :=
  get?_set_self s.clients i c x h

theorem joinWorkerState_clients (s : GState) : (joinWorkerState s).clients = s.clients := by
  unfold joinWorkerState
  split
  · rfl
  · split <;> rfl

theorem checkWorker_live (s : GState) (hrun : s.running = true)
    (hw : workerFinished s.worker = none) : checkWorker s = (s, none) := by
  by_cases hf : s.futureTaken
  · unfold checkWorker
    rw [if_pos hf, if_pos hrun]
  · unfold checkWorker
    rw [if_neg hf, hw]
    show (if s.running = true then ((s : GState), (none : Option Err))
      else (s, some Err.filesystemIoError)) = (s, none)
    rw [if_pos hrun]

theorem step_invStore_eq (s : GState) (i : Nat) (k : Key) (v : Value)
    (hidle : clientAt s i = some ClientPC.idle) (hheld : memHeld s = false) :
    step s (Action.invStore i k v) = storeStart s i k v := by
  show (if clientAt s i == some ClientPC.idle && !memHeld s then storeStart s i k v else s) = _
  rw [hidle, hheld]
  rfl

theorem step_invGet_eq (s : GState) (i : Nat) (k : Key)
    (hidle : clientAt s i = some ClientPC.idle) (hheld : memHeld s = false) :
    step s (Action.invGet i k) = getStart s i k := by
  show (if clientAt s i == some ClientPC.idle && !memHeld s then getStart s i k else s) = _
  rw [hidle, hheld]
  rfl

theorem step_invDelete_eq (s : GState) (i : Nat) (k : Key)
    (hidle : clientAt s i = some ClientPC.idle) (hheld : memHeld s = false) :
    step s (Action.invDelete i k) = deleteStart s i k := by
  show (if clientAt s i == some ClientPC.idle && !memHeld s then deleteStart s i k else s) = _
  rw [hidle, hheld]
  rfl

theorem step_resumeMemWait_eq (s : GState) (i : Nat) (k : Key) (v : Value)
    (hpc : clientAt s i = some (ClientPC.sMemWait k v)) (hheld : memHeld s = false) :
    step s (Action.resumeMemWait i) = resumeMemWaitStep s i k v := by
  show (if memHeld s = true then s
    else
      match clientAt s i with
      | some (ClientPC.sMemWait k v) => resumeMemWaitStep s i k v
      | _ => s) = _
  rw [hheld, hpc]
  rfl

theorem waitMemLoop_space (fuel : Nat) (s : GState) (r : Nat)
    (h : hasSpace s.memory_store r = true) :
    waitMemLoop (fuel + 1) s r = (s, WmlResult.space) := by
  rw [waitMemLoop, if_pos h]

theorem waitMemLoop_notRunning (fuel : Nat) (s : GState) (r : Nat) (h : s.running = false) :
    waitMemLoop (fuel + 1) s r = (s, WmlResult.space) ∨
    waitMemLoop (fuel + 1) s r = (s, WmlResult.notRunning) := by
  rw [waitMemLoop]
  by_cases hs : hasSpace s.memory_store r = true
  · left
    rw [if_pos hs]
  · right
    rw [if_neg hs, if_pos (by rw [h]; rfl)]

end DataBufferModel

namespace DataBufferModel

/-- C4 (amended): when the memory-room wait of a `put` ends with `running_` false and
the worker future resolvable, the call rethrows the worker's stored fatal error when
one exists; otherwise it returns successfully without error and without having stored
the value — `Store` skips `StoreOnDisk` on the empty lock and raises nothing.  (The
original claim's `FilesystemIoError` fallback is refuted by
`c4_silent_success_counterexample`.) -/
theorem c4_shutdown_wait_outcome (s : GState) (i : Nat) (k : Key) (v : Value)
    (hpc : clientAt s i = some (ClientPC.sMemWait k v))
    (hrun : s.running = false)
    (hheld : memHeld s = false)
    (hfin : joinWorkerResult s ≠ none) :
    (∀ e, pendingWorkerErr s = some e →
        clientAt (step s (Action.resumeMemWait i)) i = some (ClientPC.ret (OpResult.bad e))) ∧
    (pendingWorkerErr s = none →
        clientAt (step s (Action.resumeMemWait i)) i =
          some (ClientPC.ret (OpResult.good none)) ∧
        (step s (Action.resumeMemWait i)).memory_store.index = s.memory_store.index) := by
  rw [step_resumeMemWait_eq s i k v hpc hheld]
  have hrw : resumeMemWaitStep s i k v =
      match joinWorkerResult s with
      | some (some e) => setClient (joinWorkerState s) i (ClientPC.ret (OpResult.bad e))
      | some none => setClient (joinWorkerState s) i (ClientPC.ret (OpResult.good none))
      | none => setClient s i (ClientPC.sJoin k v) := by
    unfold resumeMemWaitStep
    rcases waitMemLoop_notRunning s.memory_store.index.length s v.length hrun with h | h
    · rw [h]
      show (if !s.running then _ else _) = _
      rw [hrun]
      rfl
    · rw [h]
      show (if !s.running then _ else _) = _
      rw [hrun]
      rfl
  rw [hrw]
  by_cases hf : s.futureTaken
  · have hj : joinWorkerResult s = some none := by
      unfold joinWorkerResult
      rw [if_pos hf]
    have hp : pendingWorkerErr s = none := by
      unfold pendingWorkerErr
      rw [if_pos hf]
    rw [hj, hp]
    constructor
    · intro e he
      exact absurd he (by simp)
    · intro _
      constructor
      · exact clientAt_setClient (joinWorkerState s) i _ _
          (by rw [show clientAt (joinWorkerState s) i = clientAt s i from
                congrArg (fun l => l.get? i) (joinWorkerState_clients s), hpc])
      · rw [setClient_memory, joinWorkerState_memory]
  · have hj : joinWorkerResult s = workerFinished s.worker := by
      unfold joinWorkerResult
      rw [if_neg hf]
    have hp : pendingWorkerErr s =
        match s.worker with | WorkerPC.failed e => some e | _ => none := by
      unfold pendingWorkerErr
      rw [if_neg hf]
    cases hwk : s.worker with
    | failed e =>
        have hjj : joinWorkerResult s = some (some e) := by
          rw [hj, hwk]
          rfl
        have hpp : pendingWorkerErr s = some e := by
          rw [hp, hwk]
        rw [hjj, hpp]
        constructor
        · intro e2 he2
          have he3 : e = e2 := Option.some.inj he2
          rw [← he3]
          exact clientAt_setClient (joinWorkerState s) i _ _
            (by rw [show clientAt (joinWorkerState s) i = clientAt s i from
                  congrArg (fun l => l.get? i) (joinWorkerState_clients s), hpc])
        · intro hnone
          exact absurd hnone (by simp)
    | done =>
        have hjj : joinWorkerResult s = some none := by
          rw [hj, hwk]
          rfl
        have hpp : pendingWorkerErr s = none := by
          rw [hp, hwk]
        rw [hjj, hpp]
        constructor
        · intro e2 he2
          exact absurd he2 (by simp)
        · intro _
          constructor
          · exact clientAt_setClient (joinWorkerState s) i _ _
              (by rw [show clientAt (joinWorkerState s) i = clientAt s i from
                    congrArg (fun l => l.get? i) (joinWorkerState_clients s), hpc])
          · rw [setClient_memory, joinWorkerState_memory]
    | idle =>
        have hx : joinWorkerResult s = none := by
          rw [hj, hwk]
          rfl
        exact absurd hx hfin
    | waitDisk k2 v2 =>
        have hx : joinWorkerResult s = none := by
          rw [hj, hwk]
          rfl
        exact absurd hx hfin
    | mark k2 =>
        have hx : joinWorkerResult s = none := by
          rw [hj, hwk]
          rfl
        exact absurd hx hfin

end DataBufferModel

namespace DataBufferModel

/-- Witness for `c4_shutdown_wait_outcome` at a concrete shut-down buffer whose worker
exited cleanly. -/
theorem c4_shutdown_wait_outcome_witness :
    clientAt { setClient (initState 2 2 false 1) 0 (ClientPC.sMemWait 7 [2]) with
        running := false, worker := WorkerPC.done } 0 =
      some (ClientPC.sMemWait 7 [2]) ∧
    pendingWorkerErr { setClient (initState 2 2 false 1) 0 (ClientPC.sMemWait 7 [2]) with
        running := false, worker := WorkerPC.done } = none ∧
    (clientAt (step { setClient (initState 2 2 false 1) 0 (ClientPC.sMemWait 7 [2]) with
          running := false, worker := WorkerPC.done } (Action.resumeMemWait 0)) 0 =
        some (ClientPC.ret (OpResult.good none)) ∧
      (step { setClient (initState 2 2 false 1) 0 (ClientPC.sMemWait 7 [2]) with
          running := false, worker := WorkerPC.done }
          (Action.resumeMemWait 0)).memory_store.index =
        { setClient (initState 2 2 false 1) 0 (ClientPC.sMemWait 7 [2]) with
            running := false, worker := WorkerPC.done }.memory_store.index) :=
  ⟨by decide, by decide,
    (c4_shutdown_wait_outcome _ 0 7 [2] (by decide) (by decide) (by decide) (by decide)).2
      (by decide)⟩

/-- C5: construction and both resizes accept exactly the configurations with
`memory.max <= disk.max` (equality included) and reject the rest with
`invalid_parameter`, leaving both max values untouched on rejection (the rejecting
call changes nothing but the caller's result). -/
theorem c5_max_validation :
    (∀ m d p n, m ≤ d → initBuffer m d p n = Except.ok (initState m d p n)) ∧
    (∀ m d p n, m > d → initBuffer m d p n = Except.error Err.invalidParameter) ∧
    (∀ m d p n, (initState m d p n).memory_store.max = m ∧
        (initState m d p n).disk_store.max = d) ∧
    (∀ s i nv, nv ≤ s.disk_store.max →
        setMaxMemoryUsage s i nv =
          setClient { s with memory_store := { s.memory_store with max := nv } } i
            (ClientPC.ret (OpResult.good none))) ∧
    (∀ s i nv, nv > s.disk_store.max →
        setMaxMemoryUsage s i nv =
          setClient s i (ClientPC.ret (OpResult.bad Err.invalidParameter))) ∧
    (∀ s i nv, s.memory_store.max ≤ nv →
        setMaxDiskUsage s i nv =
          setClient { s with disk_store := { s.disk_store with max := nv } } i
            (ClientPC.ret (OpResult.good none))) ∧
    (∀ s i nv, s.memory_store.max > nv →
        setMaxDiskUsage s i nv =
          setClient s i (ClientPC.ret (OpResult.bad Err.invalidParameter))) := by
  refine ⟨?_, ?_, ?_, ?_, ?_, ?_, ?_⟩
  · intro m d p n h
    unfold initBuffer
    rw [if_neg (by omega)]
  · intro m d p n h
    unfold initBuffer
    rw [if_pos h]
  · intro m d p n
    exact ⟨rfl, rfl⟩
  · intro s i nv h
    unfold setMaxMemoryUsage
    rw [if_neg (by omega)]
  · intro s i nv h
    unfold setMaxMemoryUsage
    rw [if_pos h]
  · intro s i nv h
    unfold setMaxDiskUsage
    rw [if_neg (by omega)]
  · intro s i nv h
    unfold setMaxDiskUsage
    rw [if_pos h]

/-- Witness for `c5_max_validation`: the spec's resize scenario at small scale. -/
theorem c5_max_validation_witness :
    initBuffer 2 3 false 1 = Except.ok (initState 2 3 false 1) ∧
    initBuffer 4 3 false 1 = Except.error Err.invalidParameter ∧
    setMaxMemoryUsage (initState 2 3 false 1) 0 3 =
      setClient { initState 2 3 false 1 with
          memory_store := { (initState 2 3 false 1).memory_store with max := 3 } } 0
        (ClientPC.ret (OpResult.good none)) ∧
    setMaxMemoryUsage (initState 2 3 false 1) 0 4 =
      setClient (initState 2 3 false 1) 0 (ClientPC.ret (OpResult.bad Err.invalidParameter)) ∧
    setMaxDiskUsage (initState 2 3 false 1) 0 1 =
      setClient (initState 2 3 false 1) 0 (ClientPC.ret (OpResult.bad Err.invalidParameter)) :=
  ⟨c5_max_validation.1 2 3 false 1 (by decide),
    c5_max_validation.2.1 4 3 false 1 (by decide),
    c5_max_validation.2.2.2.1 (initState 2 3 false 1) 0 3 (by decide),
    c5_max_validation.2.2.2.2.1 (initState 2 3 false 1) 0 4 (by decide),
    c5_max_validation.2.2.2.2.2.2 (initState 2 3 false 1) 0 1 (by decide)⟩

/-- C6: `get` on a live buffer returns a memory hit by copy leaving the whole state
unchanged (the disk tier is not consulted); on a memory miss it fails with
`no_such_element` when the key is absent from the disk tier or its record is
`kCancelled`, and returns the spill file's bytes when the record is `kCompleted`. -/
theorem c6_get_semantics (s : GState) (i : Nat) (k : Key)
    (hidle : clientAt s i = some ClientPC.idle)
    (hheld : memHeld s = false)
    (hrun : s.running = true)
    (hw : workerFinished s.worker = none) :
    (∀ e, s.memory_store.index.find? (fun m => m.key == k) = some e →
        step s (Action.invGet i k) = setClient s i (ClientPC.ret (OpResult.good (some e.value)))) ∧
    (s.memory_store.index.find? (fun m => m.key == k) = none →
        (s.disk_store.index.find? (fun d => d.key == k) = none →
            step s (Action.invGet i k) =
              setClient s i (ClientPC.ret (OpResult.bad Err.noSuchElement))) ∧
        (∀ d, s.disk_store.index.find? (fun d2 => d2.key == k) = some d →
            (d.state = StoringState.cancelled →
                step s (Action.invGet i k) =
                  setClient s i (ClientPC.ret (OpResult.bad Err.noSuchElement))) ∧
            (∀ v, d.state = StoringState.completed → fsLookup s.files k = some v →
                step s (Action.invGet i k) =
                  setClient s i (ClientPC.ret (OpResult.good (some v)))))) := by
  have hcw : checkWorker s = (s, none) := checkWorker_live s hrun hw
  have hg : step s (Action.invGet i k) = getStart s i k := step_invGet_eq s i k hidle hheld
  constructor
  · intro e he
    rw [hg]
    unfold getStart
    rw [hcw]
    dsimp only
    rw [he]
  · intro hm
    constructor
    · intro hd
      rw [hg]
      unfold getStart
      rw [hcw]
      dsimp only
      rw [hm, hd]
    · intro d hd
      constructor
      · intro hc
        rw [hg]
        unfold getStart
        rw [hcw]
        dsimp only
        rw [hm, hd]
        dsimp only
        rw [if_pos (by rw [hc]; rfl)]
      · intro v hcomp hf
        rw [hg]
        unfold getStart
        rw [hcw]
        dsimp only
        rw [hm, hd]
        dsimp only
        rw [if_neg (by rw [hcomp]; decide), if_neg (by rw [hcomp]; decide), hf]

/-- Witness for `c6_get_semantics`: a one-entry buffer serves the memory hit. -/
theorem c6_get_semantics_witness :
    ({ initState 4 4 false 1 with
        memory_store := ⟨4, 1, [⟨9, [5], StoringState.notStarted⟩]⟩ } :
          GState).memory_store.index.find? (fun m => m.key == 9) =
      some ⟨9, [5], StoringState.notStarted⟩ ∧
    step { initState 4 4 false 1 with
        memory_store := ⟨4, 1, [⟨9, [5], StoringState.notStarted⟩]⟩ } (Action.invGet 0 9) =
      setClient { initState 4 4 false 1 with
          memory_store := ⟨4, 1, [⟨9, [5], StoringState.notStarted⟩]⟩ } 0
        (ClientPC.ret (OpResult.good (some [5]))) :=
  ⟨by decide,
    (c6_get_semantics _ 0 9 (by decide) (by decide) (by decide) (by decide)).1
      ⟨9, [5], StoringState.notStarted⟩ (by decide)⟩

end DataBufferModel

namespace DataBufferModel

/-- C9: the speculative pre-delete inside `Store` swallows every exception.  With the
key's previous record `kCompleted` on disk but its spill file already gone, a direct
`Delete` raises `filesystem_io_error` from `RemoveFile`; the same delete performed
inside `put(k, v)` is caught and ignored, and the store proceeds to append the fresh
memory entry and return success. -/
theorem c9_predelete_swallows (s : GState) (i j : Nat) (k : Key) (v : Value)
    (hidle : clientAt s i = some ClientPC.idle)
    (hheld : memHeld s = false)
    (hrun : s.running = true)
    (hw : workerFinished s.worker = none)
    (hmem : findWithIdx (fun m => m.key == k) s.memory_store.index = none)
    (hdisk : findWithIdx (fun d => d.key == k) s.disk_store.index =
        some (j, ⟨k, StoringState.completed⟩))
    (hfile : fsLookup s.files k = none)
    (hspace : hasSpace s.memory_store v.length = true)
    (hlen : ¬ v.length > s.memory_store.max) :
    (deleteOp s k).2 = some Err.filesystemIoError ∧
    step s (Action.invStore i k v) =
      setClient
        { s with memory_store := { s.memory_store with
            current := s.memory_store.current + v.length
            index := s.memory_store.index ++ [⟨k, v, StoringState.notStarted⟩] } }
        i (ClientPC.ret (OpResult.good none)) := by
  have hcw : checkWorker s = (s, none) := checkWorker_live s hrun hw
  have hdm : deleteFromMemory s k = (s, StoringState.completed) := by
    unfold deleteFromMemory
    rw [hmem]
  have hrf : removeFile s k = (s, some Err.filesystemIoError) := by
    unfold removeFile
    rw [hfile]
  have hdd : deleteFromDisk s k = (s, some Err.filesystemIoError) := by
    unfold deleteFromDisk
    rw [hdisk]
    dsimp only
    rw [hrf]
  have hdel : deleteOp s k = (s, some Err.filesystemIoError) := by
    unfold deleteOp
    rw [hcw]
    dsimp only
    rw [hdm]
    dsimp only
    rw [if_neg (by decide)]
    exact hdd
  have hsim : storeInMemory s k v =
      ({ s with memory_store := { s.memory_store with
          current := s.memory_store.current + v.length
          index := s.memory_store.index ++ [⟨k, v, StoringState.notStarted⟩] } },
        SimOutcome.stored) := by
    unfold storeInMemory
    rw [if_neg hlen, waitMemLoop_space s.memory_store.index.length s v.length hspace]
    dsimp only
    rw [if_neg (by rw [hrun]; decide)]
  constructor
  · rw [hdel]
  · rw [step_invStore_eq s i k v hidle hheld]
    unfold storeStart
    rw [hdel]
    dsimp only
    rw [hcw]
    dsimp only
    rw [hsim]

/-- Witness for `c9_predelete_swallows`: completed disk record for key 3, file
missing; the pre-delete fails with `filesystem_io_error`, yet the store succeeds. -/
theorem c9_predelete_swallows_witness :
    (deleteOp { initState 2 4 false 1 with
        disk_store := ⟨4, 1, [⟨3, StoringState.completed⟩]⟩ } 3).2 =
      some Err.filesystemIoError ∧
    step { initState 2 4 false 1 with
        disk_store := ⟨4, 1, [⟨3, StoringState.completed⟩]⟩ } (Action.invStore 0 3 [8]) =
      setClient
        { { initState 2 4 false 1 with
            disk_store := ⟨4, 1, [⟨3, StoringState.completed⟩]⟩ } with
          memory_store := { ({ initState 2 4 false 1 with
              disk_store := ⟨4, 1, [⟨3, StoringState.completed⟩]⟩ } :
                GState).memory_store with
            current := 0 + 1
            index := [] ++ [⟨3, [8], StoringState.notStarted⟩] } }
        0 (ClientPC.ret (OpResult.good none)) :=
  c9_predelete_swallows _ 0 0 3 [8] (by decide) (by decide) (by decide) (by decide)
    (by decide) (by decide) (by decide) (by decide) (by decide)

/-- The two hex digit code points of one byte determine the byte. -/
theorem hexDigitCode_inj {a b : Nat} (ha : a < 16) (hb : b < 16)
    (h : hexDigitCode a = hexDigitCode b) : a = b := by
  unfold hexDigitCode at h
  split at h <;> split at h <;> omega

/-- HexEncode is injective on byte strings. -/
theorem hexEncode_inj : ∀ {k1 k2 : List Nat}, (∀ b ∈ k1, b < 256) → (∀ b ∈ k2, b < 256) →
    hexEncode k1 = hexEncode k2 → k1 = k2
  | [], [], _, _, _ => rfl
  | [], _ :: _, _, _, h => by simp [hexEncode] at h
  | _ :: _, [], _, _, h => by simp [hexEncode] at h
  | a :: t1, b :: t2, h1, h2, h => by
      rw [hexEncode, hexEncode] at h
      injection h with hd h
      injection h with hd2 h
      have ha := h1 a (List.mem_cons_self a t1)
      have hb := h2 b (List.mem_cons_self b t2)
      have hdiv : a / 16 = b / 16 := hexDigitCode_inj (by omega) (by omega) hd
      have hmod : a % 16 = b % 16 := hexDigitCode_inj (by omega) (by omega) hd2
      have hab : a = b := by omega
      rw [hab,
        hexEncode_inj (fun x hx => h1 x (List.mem_cons_of_mem a hx))
          (fun x hx => h2 x (List.mem_cons_of_mem b hx)) h]

/-- C10: the default spill-file naming is deterministic and injective: the name is the
spill directory joined with the hex encoding of the key's bytes, so equal keys give
equal paths and distinct keys give distinct paths. -/
theorem c10_spill_filename (dir : List Nat) (k1 k2 : List Nat)
    (h1 : ∀ b ∈ k1, b < 256) (h2 : ∀ b ∈ k2, b < 256) :
    (k1 = k2 → getFilename dir k1 = getFilename dir k2) ∧
    (getFilename dir k1 = getFilename dir k2 → k1 = k2) := by
  constructor
  · intro h
    rw [h]
  · intro h
    unfold getFilename at h
    have h3 := List.append_cancel_left h
    injection h3 with _ h4
    exact hexEncode_inj h1 h2 h4

/-- Witness for `c10_spill_filename` on concrete byte strings. -/
theorem c10_spill_filename_witness :
    (∀ b ∈ [0, 255], b < 256) ∧
    (getFilename [100] [0, 255] = getFilename [100] [0, 255] → [0, 255] = [0, 255]) :=
  ⟨by decide, (c10_spill_filename [100] [0, 255] [0, 255] (by decide) (by decide)).2⟩

end DataBufferModel

namespace DataBufferModel

/-- Witness for `c2_migration_state_monotone` at the worker's end-of-spill marking in
the reachable state `c2Pre`. -/
theorem c2_migration_state_monotone_witness :
    (⟨0, [3, 4, 5], StoringState.completed⟩ : MemoryElement) ∈
      (step c2Pre Action.worker).memory_store.index ∧
    ((⟨0, [3, 4, 5], StoringState.completed⟩ : MemoryElement).also_on_disk =
        StoringState.notStarted ∨
      ∃ e ∈ c2Pre.memory_store.index,
        e.key = (⟨0, [3, 4, 5], StoringState.completed⟩ : MemoryElement).key ∧
        e.value = (⟨0, [3, 4, 5], StoringState.completed⟩ : MemoryElement).value ∧
        rank e.also_on_disk ≤
          rank (⟨0, [3, 4, 5], StoringState.completed⟩ : MemoryElement).also_on_disk) :=
  ⟨by decide, c2_migration_state_monotone c2Pre Action.worker _ (by decide)⟩

/-! ## Plumbing: fields preserved by the pre-delete and the worker check -/

theorem checkWorker_running (s : GState) : ((checkWorker s).1).running = s.running := by
  unfold checkWorker
  repeat' split
  all_goals rfl

theorem checkWorker_clients (s : GState) : ((checkWorker s).1).clients = s.clients := by
  unfold checkWorker
  repeat' split
  all_goals rfl

theorem checkWorker_worker (s : GState) : ((checkWorker s).1).worker = s.worker := by
  unfold checkWorker
  repeat' split
  all_goals rfl

theorem checkWorker_disk (s : GState) : ((checkWorker s).1).disk_store = s.disk_store := by
  unfold checkWorker
  repeat' split
  all_goals rfl

theorem deleteFromMemory_running (s : GState) (k : Key) :
    ((deleteFromMemory s k).1).running = s.running := by
  unfold deleteFromMemory
  split <;> rfl

theorem deleteFromMemory_clients (s : GState) (k : Key) :
    ((deleteFromMemory s k).1).clients = s.clients := by
  unfold deleteFromMemory
  split <;> rfl

theorem deleteFromMemory_worker (s : GState) (k : Key) :
    ((deleteFromMemory s k).1).worker = s.worker := by
  unfold deleteFromMemory
  split <;> rfl

theorem deleteFromMemory_disk (s : GState) (k : Key) :
    ((deleteFromMemory s k).1).disk_store = s.disk_store := by
  unfold deleteFromMemory
  split <;> rfl

theorem deleteFromMemory_memMax (s : GState) (k : Key) :
    ((deleteFromMemory s k).1).memory_store.max = s.memory_store.max := by
  unfold deleteFromMemory
  split <;> rfl

theorem removeFile_running (s : GState) (k : Key) :
    ((removeFile s k).1).running = s.running := by
  unfold removeFile
  split <;> rfl

theorem removeFile_clients (s : GState) (k : Key) :
    ((removeFile s k).1).clients = s.clients := by
  unfold removeFile
  split <;> rfl

theorem removeFile_worker (s : GState) (k : Key) :
    ((removeFile s k).1).worker = s.worker := by
  unfold removeFile
  split <;> rfl

theorem removeFile_diskIndex (s : GState) (k : Key) :
    ((removeFile s k).1).disk_store.index = s.disk_store.index := by
  unfold removeFile
  split <;> rfl

theorem removeFile_diskMax (s : GState) (k : Key) :
    ((removeFile s k).1).disk_store.max = s.disk_store.max := by
  unfold removeFile
  split <;> rfl

theorem deleteFromDisk_running (s : GState) (k : Key) :
    ((deleteFromDisk s k).1).running = s.running := by
  unfold deleteFromDisk
  split
  · rfl
  · split
    · rfl
    · dsimp only
      split
      · exact removeFile_running s k
      · exact removeFile_running s k
    · rfl

theorem deleteFromDisk_clients (s : GState) (k : Key) :
    ((deleteFromDisk s k).1).clients = s.clients := by
  unfold deleteFromDisk
  split
  · rfl
  · split
    · rfl
    · dsimp only
      split
      · exact removeFile_clients s k
      · exact removeFile_clients s k
    · rfl

theorem deleteFromDisk_worker (s : GState) (k : Key) :
    ((deleteFromDisk s k).1).worker = s.worker := by
  unfold deleteFromDisk
  split
  · rfl
  · split
    · rfl
    · dsimp only
      split
      · exact removeFile_worker s k
      · exact removeFile_worker s k
    · rfl

theorem deleteFromDisk_diskMax (s : GState) (k : Key) :
    ((deleteFromDisk s k).1).disk_store.max = s.disk_store.max := by
  unfold deleteFromDisk
  split
  · rfl
  · split
    · rfl
    · dsimp only
      split
      · exact removeFile_diskMax s k
      · exact removeFile_diskMax s k
    · rfl

theorem deleteFromDisk_started_sub (s : GState) (k : Key) :
    ∀ e ∈ ((deleteFromDisk s k).1).disk_store.index,
      e.state = StoringState.started → e ∈ s.disk_store.index := by
  unfold deleteFromDisk
  split
  · exact fun e he _ => he
  · rename_i j a hf
    split
    · intro e he hes
      rcases mem_modifyIdx_of_find hf e he with h | ⟨heq, _⟩
      · exact h
      · rw [heq] at hes
        simp at hes
    · dsimp only
      split
      · intro e he _
        rw [removeFile_diskIndex] at he
        exact he
      · intro e he _
        have h2 := mem_of_eraseIdx he
        rw [removeFile_diskIndex] at h2
        exact h2
    · exact fun e he _ => he

theorem deleteOp_running (s : GState) (k : Key) :
    ((deleteOp s k).1).running = s.running := by
  unfold deleteOp
  dsimp only
  split
  · rw [checkWorker_running]
  · split
    · rw [deleteFromMemory_running, checkWorker_running]
    · rw [deleteFromDisk_running, deleteFromMemory_running, checkWorker_running]

theorem deleteOp_clients (s : GState) (k : Key) :
    ((deleteOp s k).1).clients = s.clients := by
  unfold deleteOp
  dsimp only
  split
  · rw [checkWorker_clients]
  · split
    · rw [deleteFromMemory_clients, checkWorker_clients]
    · rw [deleteFromDisk_clients, deleteFromMemory_clients, checkWorker_clients]

theorem deleteOp_worker (s : GState) (k : Key) :
    ((deleteOp s k).1).worker = s.worker := by
  unfold deleteOp
  dsimp only
  split
  · rw [checkWorker_worker]
  · split
    · rw [deleteFromMemory_worker, checkWorker_worker]
    · rw [deleteFromDisk_worker, deleteFromMemory_worker, checkWorker_worker]

theorem deleteOp_memMax (s : GState) (k : Key) :
    ((deleteOp s k).1).memory_store.max = s.memory_store.max := by
  unfold deleteOp
  dsimp only
  split
  · rw [checkWorker_memory]
  · split
    · rw [deleteFromMemory_memMax]
      rw [checkWorker_memory]
    · rw [deleteFromDisk_memory, deleteFromMemory_memMax]
      rw [checkWorker_memory]

theorem deleteOp_diskMax (s : GState) (k : Key) :
    ((deleteOp s k).1).disk_store.max = s.disk_store.max := by
  unfold deleteOp
  dsimp only
  split
  · rw [checkWorker_disk]
  · split
    · rw [deleteFromMemory_disk, checkWorker_disk]
    · rw [deleteFromDisk_diskMax, deleteFromMemory_disk, checkWorker_disk]

theorem deleteOp_started_sub (s : GState) (k : Key) :
    ∀ e ∈ ((deleteOp s k).1).disk_store.index,
      e.state = StoringState.started → e ∈ s.disk_store.index := by
  unfold deleteOp
  dsimp only
  split
  · intro e he _
    rw [checkWorker_disk] at he
    exact he
  · split
    · intro e he _
      rw [deleteFromMemory_disk, checkWorker_disk] at he
      exact he
    · intro e he hes
      have h2 := deleteFromDisk_started_sub (deleteFromMemory (checkWorker s).1 k).1 k e he hes
      rw [deleteFromMemory_disk, checkWorker_disk] at h2
      exact h2

end DataBufferModel

namespace DataBufferModel

/-! ## Plumbing: the `running_` flag only ever goes down -/

theorem setClient_running (s : GState) (i : Nat) (c : ClientPC) :
    (setClient s i c).running = s.running := rfl

theorem sodLoop_running : ∀ (fuel : Nat) (s : GState) (k : Key) (r : Nat),
    ((sodLoop fuel s k r).1).running = s.running
  | 0, _, _, _ => rfl
  | fuel + 1, s, k, r => by
      rw [sodLoop]
      split
      · rfl
      · split
        · rfl
        · split
          · rfl
          · split
            · split
              · rfl
              · split
                · dsimp only
                  split
                  · exact removeFile_running s _
                  · rw [sodLoop_running fuel]
                    exact removeFile_running s _
                · rfl
            · rfl

theorem storeOnDiskFinish_running (s : GState) (k : Key) (v : Value) (r : SodLoopResult) :
    ((storeOnDiskFinish s k v r).1).running = s.running := by
  unfold storeOnDiskFinish
  split <;> try rfl
  split
  · rfl
  · dsimp only
    split <;> rfl

theorem storeOnDiskResume_running (s : GState) (k : Key) (v : Value) :
    ((storeOnDiskResume s k v).1).running = s.running := by
  unfold storeOnDiskResume
  rw [storeOnDiskFinish_running, sodLoop_running]

theorem storeOnDiskEnter_running_false (s : GState) (k : Key) (v : Value)
    (h : s.running = false) : ((storeOnDiskEnter s k v).1).running = false := by
  unfold storeOnDiskEnter
  split
  · rfl
  · rw [storeOnDiskFinish_running, sodLoop_running]
    exact h

theorem waitMemLoop_running : ∀ (fuel : Nat) (s : GState) (r : Nat),
    ((waitMemLoop fuel s r).1).running = s.running
  | 0, _, _ => rfl
  | fuel + 1, s, r => by
      rw [waitMemLoop]
      split
      · rfl
      · split
        · rfl
        · split
          · rw [waitMemLoop_running fuel]
          · rfl

theorem joinWorkerState_running (s : GState) : (joinWorkerState s).running = s.running := by
  unfold joinWorkerState
  split
  · rfl
  · split <;> rfl

theorem storeInMemory_running (s : GState) (k : Key) (v : Value) :
    ((storeInMemory s k v).1).running = s.running := by
  unfold storeInMemory
  split
  · rfl
  · dsimp only
    split
    · exact waitMemLoop_running _ s v.length
    · split
      · exact waitMemLoop_running _ s v.length
      · show ((waitMemLoop (s.memory_store.index.length + 1) s v.length).1).running = s.running
        exact waitMemLoop_running _ s v.length

theorem storeStart_running_false (s : GState) (i : Nat) (k : Key) (v : Value)
    (h : s.running = false) : (storeStart s i k v).running = false := by
  unfold storeStart
  dsimp only
  split
  · rw [setClient_running, checkWorker_running, deleteOp_running]
    exact h
  · split
    · rw [setClient_running]
      show ((storeInMemory (checkWorker (deleteOp s k).1).1 k v).1).running = false
      rw [storeInMemory_running, checkWorker_running, deleteOp_running]
      exact h
    · rw [setClient_running, storeInMemory_running, checkWorker_running, deleteOp_running]
      exact h
    · split
      · rw [setClient_running, joinWorkerState_running, storeInMemory_running,
          checkWorker_running, deleteOp_running]
        exact h
      · rw [setClient_running, joinWorkerState_running, storeInMemory_running,
          checkWorker_running, deleteOp_running]
        exact h
      · rw [setClient_running, storeInMemory_running, checkWorker_running, deleteOp_running]
        exact h
    · split
      all_goals
        rw [setClient_running]
        exact storeOnDiskEnter_running_false _ k v
          (by rw [storeInMemory_running, checkWorker_running, deleteOp_running]; exact h)

theorem getStart_running (s : GState) (i : Nat) (k : Key) :
    (getStart s i k).running = s.running := by
  unfold getStart
  dsimp only
  repeat' split
  all_goals rw [setClient_running, checkWorker_running]

theorem deleteStart_running (s : GState) (i : Nat) (k : Key) :
    (deleteStart s i k).running = s.running := by
  unfold deleteStart
  dsimp only
  split <;> rw [setClient_running, deleteOp_running]

theorem setMaxMemoryUsage_running (s : GState) (i n : Nat) :
    (setMaxMemoryUsage s i n).running = s.running := by
  unfold setMaxMemoryUsage
  split <;> rfl

theorem setMaxDiskUsage_running (s : GState) (i n : Nat) :
    (setMaxDiskUsage s i n).running = s.running := by
  unfold setMaxDiskUsage
  split <;> rfl

theorem resumeMemWaitStep_running (s : GState) (i : Nat) (k : Key) (v : Value) :
    (resumeMemWaitStep s i k v).running = s.running := by
  unfold resumeMemWaitStep
  dsimp only
  split
  · rw [setClient_running, waitMemLoop_running]
  · split
    · split
      · rw [setClient_running, joinWorkerState_running, waitMemLoop_running]
      · rw [setClient_running, joinWorkerState_running, waitMemLoop_running]
      · rw [setClient_running, waitMemLoop_running]
    · rw [setClient_running]
      show ((waitMemLoop (s.memory_store.index.length + 1) s v.length).1).running = s.running
      rw [waitMemLoop_running]

theorem resumeJoinStep_running (s : GState) (i : Nat) :
    (resumeJoinStep s i).running = s.running := by
  unfold resumeJoinStep
  split
  · rw [setClient_running, joinWorkerState_running]
  · rw [setClient_running, joinWorkerState_running]
  · rfl

theorem resumeDiskWaitStep_running (s : GState) (i : Nat) (k : Key) (v : Value) :
    (resumeDiskWaitStep s i k v).running = s.running := by
  unfold resumeDiskWaitStep
  dsimp only
  split
  · rw [setClient_running, storeOnDiskResume_running]
  · rw [setClient_running, storeOnDiskResume_running]
  · rw [storeOnDiskResume_running]

theorem resumeGetWaitStep_running (s : GState) (i : Nat) (k : Key) :
    (resumeGetWaitStep s i k).running = s.running := by
  unfold resumeGetWaitStep
  repeat' split
  all_goals rfl

theorem workerIdleStep_running_false (s : GState) (h : s.running = false) :
    (workerIdleStep s).running = false := by
  unfold workerIdleStep
  rw [if_pos (by rw [h]; rfl)]
  exact h

theorem workerWaitDiskStep_running (s : GState) (k : Key) (v : Value) :
    (workerWaitDiskStep s k v).running = s.running := by
  unfold workerWaitDiskStep
  dsimp only
  split
  · show ((storeOnDiskResume s k v).1).running = s.running
    rw [storeOnDiskResume_running]
  · rw [storeOnDiskResume_running]
  · show ((storeOnDiskResume s k v).1).running = s.running
    rw [storeOnDiskResume_running]

theorem workerMarkStep_running (s : GState) (k : Key) :
    (workerMarkStep s k).running = s.running := by
  unfold workerMarkStep
  dsimp only
  split <;> rfl

theorem workerStep_running_false (s : GState) (h : s.running = false) :
    (workerStep s).running = false := by
  unfold workerStep
  split
  · split
    · exact h
    · exact workerIdleStep_running_false s h
  · rw [workerWaitDiskStep_running]
    exact h
  · split
    · exact h
    · rw [workerMarkStep_running]
      exact h
  · exact h
  · exact h

theorem step_running_false (s : GState) (a : Action) (h : s.running = false) :
    (step s a).running = false := by
  cases a with
  | worker => exact workerStep_running_false s h
  | invStore i k v =>
      simp only [step]
      split
      · exact storeStart_running_false s i k v h
      · exact h
  | invGet i k =>
      simp only [step]
      split
      · rw [getStart_running]
        exact h
      · exact h
  | invDelete i k =>
      simp only [step]
      split
      · rw [deleteStart_running]
        exact h
      · exact h
  | invSetMemMax i n =>
      simp only [step]
      split
      · rw [setMaxMemoryUsage_running]
        exact h
      · exact h
  | invSetDiskMax i n =>
      simp only [step]
      split
      · rw [setMaxDiskUsage_running]
        exact h
      · exact h
  | resumeMemWait i =>
      simp only [step]
      split
      · exact h
      · split
        all_goals first
          | (rw [resumeMemWaitStep_running]; exact h)
          | exact h
  | resumeJoin i =>
      simp only [step]
      split
      all_goals first
        | (rw [resumeJoinStep_running]; exact h)
        | exact h
  | resumeDiskWait i =>
      simp only [step]
      split
      all_goals first
        | (rw [resumeDiskWaitStep_running]; exact h)
        | exact h
  | resumeGetWait i =>
      simp only [step]
      split
      all_goals first
        | (rw [resumeGetWaitStep_running]; exact h)
        | exact h
  | ack i =>
      simp only [step]
      split
      all_goals first
        | (rw [setClient_running]; exact h)
        | exact h

theorem runActs_running_false : ∀ (acts : List Action) (s : GState), s.running = false →
    (runActs s acts).running = false
  | [], _, h => h
  | a :: t, s, h => runActs_running_false t (step s a) (step_running_false s a h)

/-! ## A stopped buffer refuses every public operation -/

theorem checkWorker_stopped (s : GState) (h : s.running = false) :
    ∃ e, (checkWorker s).2 = some e := by
  unfold checkWorker
  split
  · rw [if_neg (by rw [h]; decide)]
    exact ⟨_, rfl⟩
  · split
    · exact ⟨_, rfl⟩
    · rw [if_neg (by rw [h]; decide)]
      exact ⟨_, rfl⟩
    · rw [if_neg (by rw [h]; decide)]
      exact ⟨_, rfl⟩

theorem storeStart_stopped (s : GState) (i : Nat) (k : Key) (v : Value)
    (h : s.running = false) (x : ClientPC) (hc : clientAt s i = some x) :
    ∃ e, clientAt (storeStart s i k v) i = some (ClientPC.ret (OpResult.bad e)) := by
  have h1 : ((deleteOp s k).1).running = false := by
    rw [deleteOp_running]
    exact h
  obtain ⟨e, he⟩ := checkWorker_stopped (deleteOp s k).1 h1
  refine ⟨e, ?_⟩
  unfold storeStart
  dsimp only
  rw [he]
  exact clientAt_setClient _ i _ x (by
    show ((checkWorker (deleteOp s k).1).1).clients.get? i = some x
    rw [checkWorker_clients, deleteOp_clients]
    exact hc)

theorem getStart_stopped (s : GState) (i : Nat) (k : Key)
    (h : s.running = false) (x : ClientPC) (hc : clientAt s i = some x) :
    ∃ e, clientAt (getStart s i k) i = some (ClientPC.ret (OpResult.bad e)) := by
  obtain ⟨e, he⟩ := checkWorker_stopped s h
  refine ⟨e, ?_⟩
  unfold getStart
  dsimp only
  rw [he]
  exact clientAt_setClient _ i _ x (by
    show ((checkWorker s).1).clients.get? i = some x
    rw [checkWorker_clients]
    exact hc)

theorem deleteStart_stopped (s : GState) (i : Nat) (k : Key)
    (h : s.running = false) (x : ClientPC) (hc : clientAt s i = some x) :
    ∃ e, clientAt (deleteStart s i k) i = some (ClientPC.ret (OpResult.bad e)) := by
  obtain ⟨e, he⟩ := checkWorker_stopped s h
  have hdel : (deleteOp s k).2 = some e ∧ (deleteOp s k).1 = (checkWorker s).1 := by
    unfold deleteOp
    dsimp only
    rw [he]
    exact ⟨rfl, rfl⟩
  refine ⟨e, ?_⟩
  unfold deleteStart
  dsimp only
  rw [hdel.1]
  rw [hdel.2]
  exact clientAt_setClient _ i _ x (by
    show ((checkWorker s).1).clients.get? i = some x
    rw [checkWorker_clients]
    exact hc)

theorem step_stopped_fails (s2 : GState) (j : Nat) (k2 : Key) (v2 : Value)
    (h : s2.running = false) (hj : clientAt s2 j = some ClientPC.idle)
    (hh : memHeld s2 = false) :
    (∃ e, clientAt (step s2 (Action.invStore j k2 v2)) j =
        some (ClientPC.ret (OpResult.bad e))) ∧
    (∃ e, clientAt (step s2 (Action.invGet j k2)) j = some (ClientPC.ret (OpResult.bad e))) ∧
    (∃ e, clientAt (step s2 (Action.invDelete j k2)) j =
        some (ClientPC.ret (OpResult.bad e))) := by
  refine ⟨?_, ?_, ?_⟩
  · rw [step_invStore_eq s2 j k2 v2 hj hh]
    exact storeStart_stopped s2 j k2 v2 h _ hj
  · rw [step_invGet_eq s2 j k2 hj hh]
    exact getStart_stopped s2 j k2 h _ hj
  · rw [step_invDelete_eq s2 j k2 hj hh]
    exact deleteStart_stopped s2 j k2 h _ hj

end DataBufferModel

namespace DataBufferModel

/-- C3: on a live buffer, `put(k, v)` with `|v| > disk.max` takes the inline disk path
(`|v| > memory.max` follows from `memory.max <= disk.max`), raises
`CannotExceedLimit` before appending any `kStarted` disk record (every started record
afterwards was already there), clears the `running_` flag, which then stays down under
every further schedule, and any stopped buffer fails every subsequent put, get and
remove with an error. -/
theorem c3_cannot_exceed_limit (s : GState) (i : Nat) (k : Key) (v : Value)
    (hidle : clientAt s i = some ClientPC.idle)
    (hheld : memHeld s = false)
    (hrun : s.running = true)
    (hw : workerFinished s.worker = none)
    (hmd : s.memory_store.max ≤ s.disk_store.max)
    (hv : v.length > s.disk_store.max) :
    clientAt (step s (Action.invStore i k v)) i =
      some (ClientPC.ret (OpResult.bad Err.cannotExceedLimit)) ∧
    (step s (Action.invStore i k v)).running = false ∧
    (∀ e ∈ (step s (Action.invStore i k v)).disk_store.index,
        e.state = StoringState.started → e ∈ s.disk_store.index) ∧
    (∀ acts, (runActs (step s (Action.invStore i k v)) acts).running = false) ∧
    (∀ s2 j k2 v2, s2.running = false → clientAt s2 j = some ClientPC.idle →
        memHeld s2 = false →
        (∃ e, clientAt (step s2 (Action.invStore j k2 v2)) j =
            some (ClientPC.ret (OpResult.bad e))) ∧
        (∃ e, clientAt (step s2 (Action.invGet j k2)) j =
            some (ClientPC.ret (OpResult.bad e))) ∧
        (∃ e, clientAt (step s2 (Action.invDelete j k2)) j =
            some (ClientPC.ret (OpResult.bad e)))) := by
  have hrun1 : ((deleteOp s k).1).running = true := by
    rw [deleteOp_running]
    exact hrun
  have hw1 : workerFinished ((deleteOp s k).1).worker = none := by
    rw [deleteOp_worker]
    exact hw
  have hcw : checkWorker (deleteOp s k).1 = ((deleteOp s k).1, none) :=
    checkWorker_live _ hrun1 hw1
  have hlen : v.length > ((deleteOp s k).1).memory_store.max := by
    rw [deleteOp_memMax]
    omega
  have hdm : v.length > ((deleteOp s k).1).disk_store.max := by
    rw [deleteOp_diskMax]
    omega
  have hsim : storeInMemory (deleteOp s k).1 k v = ((deleteOp s k).1, SimOutcome.toDisk) := by
    unfold storeInMemory
    rw [if_pos hlen]
  have hsod : storeOnDiskEnter (deleteOp s k).1 k v =
      (stopRunning (deleteOp s k).1, SodOutcome.threw Err.cannotExceedLimit) := by
    unfold storeOnDiskEnter
    rw [if_pos hdm]
  have hstep : step s (Action.invStore i k v) =
      setClient (stopRunning (deleteOp s k).1) i
        (ClientPC.ret (OpResult.bad Err.cannotExceedLimit)) := by
    rw [step_invStore_eq s i k v hidle hheld]
    unfold storeStart
    dsimp only
    rw [hcw]
    dsimp only
    rw [hsim]
    dsimp only
    rw [hsod]
  refine ⟨?_, ?_, ?_, ?_, ?_⟩
  · rw [hstep]
    exact clientAt_setClient _ i _ ClientPC.idle (by
      show ((deleteOp s k).1).clients.get? i = some ClientPC.idle
      rw [deleteOp_clients]
      exact hidle)
  · rw [hstep, setClient_running]
    rfl
  · rw [hstep]
    intro e he hes
    exact deleteOp_started_sub s k e he hes
  · intro acts
    exact runActs_running_false acts _ (by rw [hstep, setClient_running]; rfl)
  · intro s2 j k2 v2 h2 hj hh
    exact step_stopped_fails s2 j k2 v2 h2 hj hh

/-- Witness for `c3_cannot_exceed_limit`: a 3-byte value against `disk.max = 2`. -/
theorem c3_cannot_exceed_limit_witness :
    clientAt (step (initState 1 2 false 1) (Action.invStore 0 0 [1, 1, 1])) 0 =
      some (ClientPC.ret (OpResult.bad Err.cannotExceedLimit)) ∧
    (step (initState 1 2 false 1) (Action.invStore 0 0 [1, 1, 1])).running = false :=
  ⟨(c3_cannot_exceed_limit (initState 1 2 false 1) 0 0 [1, 1, 1] (by decide) (by decide)
      (by decide) (by decide) (by decide) (by decide)).1,
    (c3_cannot_exceed_limit (initState 1 2 false 1) 0 0 [1, 1, 1] (by decide) (by decide)
      (by decide) (by decide) (by decide) (by decide)).2.1⟩

end DataBufferModel

namespace DataBufferModel

theorem findWithIdx_spec {α : Type} {p : α → Bool} :
    ∀ {l : List α} {i : Nat} {a : α}, findWithIdx p l = some (i, a) →
      p a = true ∧ l.get? i = some a ∧
        ∀ j b, j < i → l.get? j = some b → p b = false := by
  intro l
  induction l with
  | nil => intro i a h; simp [findWithIdx] at h
  | cons c t ih =>
      intro i a h
      rw [findWithIdx] at h
      split at h
      · rename_i hc
        simp only [Option.some.injEq, Prod.mk.injEq] at h
        obtain ⟨hi, ha⟩ := h
        subst ha
        subst hi
        exact ⟨hc, rfl, fun j b hj _ => absurd hj (by omega)⟩
      · rename_i hc
        cases hf : findWithIdx p t with
        | none => rw [hf] at h; simp at h
        | some ja =>
            obtain ⟨j0, a0⟩ := ja
            rw [hf] at h
            simp only [Option.map_some', Option.some.injEq, Prod.mk.injEq] at h
            obtain ⟨hi, ha⟩ := h
            subst ha
            subst hi
            obtain ⟨hp, hg, hmin⟩ := ih hf
            refine ⟨hp, hg, ?_⟩
            intro j b hj hgb
            cases j with
            | zero =>
                have hbc : b = c := by
                  injection hgb with h2
                  exact h2.symm
                rw [hbc]
                cases hpc : p c with
                | false => rfl
                | true => exact absurd hpc hc
            | succ j2 =>
                exact hmin j2 b (by omega) hgb

theorem mem_eraseIdx_of_ne {α : Type} : ∀ {l : List α} {j : Nat} {a e : α},
    l.get? j = some a → e ∈ l → e ≠ a → e ∈ l.eraseIdx j
  | [], j, a, e, h, _, _ => by simp at h
  | c :: t, 0, a, e, h, he, hne => by
      rw [List.eraseIdx_cons_zero]
      have hac : a = c := by
        injection h with h2
        exact h2.symm
      rcases List.mem_cons.mp he with h3 | h3
      · exact absurd (h3.trans hac.symm) hne
      · exact h3
  | c :: t, j + 1, a, e, h, he, hne => by
      rw [List.eraseIdx_cons_succ]
      rcases List.mem_cons.mp he with h3 | h3
      · exact h3 ▸ List.mem_cons_self c _
      · exact List.mem_cons_of_mem c (mem_eraseIdx_of_ne h h3 hne)

theorem waitMemLoop_keeps_noncompleted : ∀ (fuel : Nat) (s : GState) (r : Nat)
    (e : MemoryElement), e ∈ s.memory_store.index →
    e.also_on_disk ≠ StoringState.completed →
    e ∈ ((waitMemLoop fuel s r).1).memory_store.index
  | 0, _, _, _ => fun he _ => he
  | fuel + 1, s, r, e => by
      rw [waitMemLoop]
      split
      · exact fun he _ => he
      · split
        · exact fun he _ => he
        · split
          · rename_i j a hf
            intro he hne
            refine waitMemLoop_keeps_noncompleted fuel _ r e ?_ hne
            have hspec := findWithIdx_spec hf
            have hac : a.also_on_disk = StoringState.completed := by
              have := hspec.1
              simpa using this
            exact mem_eraseIdx_of_ne hspec.2.1 he (by
              intro hx
              rw [hx] at hne
              exact hne hac)
          · exact fun he _ => he

/-- C7: whenever `put` reclaims memory room, the entry removed is the front-most
(oldest) memory entry whose migration state is `kCompleted`: the removal-candidate
search yields the first `kCompleted` entry (all earlier entries are not completed),
and the reclaim loop never removes an entry in `kNotStarted` or `kStarted` state. -/
theorem c7_memory_eviction_policy :
    (∀ (l : List MemoryElement) (i : Nat) (e : MemoryElement),
        findWithIdx (fun m => m.also_on_disk == StoringState.completed) l = some (i, e) →
        e.also_on_disk = StoringState.completed ∧
        l.get? i = some e ∧
        ∀ j e2, j < i → l.get? j = some e2 →
          e2.also_on_disk ≠ StoringState.completed) ∧
    (∀ (fuel : Nat) (s : GState) (r : Nat) (e : MemoryElement),
        e ∈ s.memory_store.index → e.also_on_disk ≠ StoringState.completed →
        e ∈ ((waitMemLoop fuel s r).1).memory_store.index) := by
  constructor
  · intro l i e hf
    have hspec := findWithIdx_spec hf
    refine ⟨by simpa using hspec.1, hspec.2.1, ?_⟩
    intro j e2 hj hg
    have := hspec.2.2 j e2 hj hg
    simp at this
    intro hx
    rw [hx] at this
    exact absurd this (by decide)
  · exact waitMemLoop_keeps_noncompleted

/-- Witness for `c7_memory_eviction_policy`: the search skips the started front entry
and selects the completed second entry; the started entry survives the reclaim loop. -/
theorem c7_memory_eviction_policy_witness :
    (findWithIdx (fun m : MemoryElement => m.also_on_disk == StoringState.completed)
        ([⟨1, [7], StoringState.started⟩, ⟨2, [8], StoringState.completed⟩] :
          List MemoryElement) =
      some (1, ⟨2, [8], StoringState.completed⟩) ∧
      ((⟨2, [8], StoringState.completed⟩ : MemoryElement).also_on_disk =
          StoringState.completed ∧
        ([⟨1, [7], StoringState.started⟩,
            ⟨2, [8], StoringState.completed⟩] : List MemoryElement).get? 1 =
          some ⟨2, [8], StoringState.completed⟩ ∧
        ∀ j e2, j < 1 →
          ([⟨1, [7], StoringState.started⟩,
              ⟨2, [8], StoringState.completed⟩] : List MemoryElement).get? j = some e2 →
          e2.also_on_disk ≠ StoringState.completed)) ∧
    (⟨1, [7], StoringState.started⟩ : MemoryElement) ∈
      ((waitMemLoop 3 { initState 2 2 false 1 with
          memory_store := ⟨2, 3,
            [⟨1, [7], StoringState.started⟩, ⟨2, [8, 8], StoringState.completed⟩]⟩ }
          2).1).memory_store.index :=
  ⟨⟨by decide,
      c7_memory_eviction_policy.1
        [⟨1, [7], StoringState.started⟩, ⟨2, [8], StoringState.completed⟩] 1
        ⟨2, [8], StoringState.completed⟩ (by decide)⟩,
    c7_memory_eviction_policy.2 3
      { initState 2 2 false 1 with
        memory_store := ⟨2, 3,
          [⟨1, [7], StoringState.started⟩, ⟨2, [8, 8], StoringState.completed⟩]⟩ } 2
      ⟨1, [7], StoringState.started⟩ (by decide) (by decide)⟩

end DataBufferModel

namespace DataBufferModel

theorem hasSpace_zero {α : Type} (m : Nat) (l : List α) (r : Nat) :
    hasSpace ⟨m, 0, l⟩ r = true :=
  decide_eq_true (Nat.zero_le _)

theorem put1_eq (mm dm : Nat) (k : Key) (v1 : Value) (h1m : v1.length ≤ mm) :
    runActs (initState mm dm false 1) [Action.invStore 0 k v1, Action.ack 0] =
      shA mm dm k v1 := by
  have hnm : ¬ (v1.length > mm) := by omega
  simp [runActs, step, storeStart, deleteOp, checkWorker, workerFinished,
    deleteFromMemory, deleteFromDisk, removeFile, fsLookup, fsErase, fsWrite,
    storeInMemory, waitMemLoop, hasSpace, findWithIdx, modifyIdx,
    storeOnDiskEnter, sodLoop, storeOnDiskFinish, stopRunning,
    joinWorkerResult, joinWorkerState, setClient, clientAt, memHeld, isJoin,
    initState, shA, hnm, U64]

end DataBufferModel

namespace DataBufferModel

theorem workerStep_shA (mm dm : Nat) (k : Key) (v1 : Value)
    (h1m : v1.length ≤ mm) (hmd : mm ≤ dm) :
    workerStep (shA mm dm k v1) = shB mm dm k v1 := by
  have hnd : ¬ (v1.length > dm) := by omega
  simp [workerStep, workerIdleStep, memHeld, isJoin, findWithIdx, modifyIdx,
    storeOnDiskEnter, sodLoop, storeOnDiskFinish, hasSpace, stopRunning,
    fsWrite, fsLookup, removeFile, shA, shB, hnd, U64]

theorem workerStep_shB (mm dm : Nat) (k : Key) (v1 : Value) :
    workerStep (shB mm dm k v1) = shC mm dm k v1 := by
  simp [workerStep, workerMarkStep, memHeld, isJoin, findWithIdx, modifyIdx, shB, shC]

theorem workerStep_shC (mm dm : Nat) (k : Key) (v1 : Value) :
    workerStep (shC mm dm k v1) = shC mm dm k v1 := by
  simp [workerStep, workerIdleStep, memHeld, isJoin, findWithIdx, shC]

theorem workerIter_put1 (mm dm : Nat) (k : Key) (v1 : Value)
    (h1m : v1.length ≤ mm) (hmd : mm ≤ dm) : ∀ (n : Nat) (s : GState),
    (s = shA mm dm k v1 ∨ s = shB mm dm k v1 ∨ s = shC mm dm k v1) →
    (workerIter n s = shA mm dm k v1 ∨ workerIter n s = shB mm dm k v1 ∨
      workerIter n s = shC mm dm k v1)
  | 0, s, h => h
  | n + 1, s, h => by
      have hrw : workerIter (n + 1) s = workerIter n (workerStep s) := rfl
      rw [hrw]
      rcases h with rfl | rfl | rfl
      · rw [workerStep_shA mm dm k v1 h1m hmd]
        exact workerIter_put1 mm dm k v1 h1m hmd n _ (Or.inr (Or.inl rfl))
      · rw [workerStep_shB]
        exact workerIter_put1 mm dm k v1 h1m hmd n _ (Or.inr (Or.inr rfl))
      · rw [workerStep_shC]
        exact workerIter_put1 mm dm k v1 h1m hmd n _ (Or.inr (Or.inr rfl))

theorem put2_shA (mm dm : Nat) (k : Key) (v1 v2 : Value) (h2m : v2.length ≤ mm) :
    runActs (shA mm dm k v1) [Action.invStore 0 k v2, Action.ack 0] =
      shA2 mm dm k v2 := by
  have hnm : ¬ (v2.length > mm) := by omega
  simp [runActs, step, storeStart, deleteOp, checkWorker, workerFinished,
    deleteFromMemory, deleteFromDisk, removeFile, fsLookup, fsErase, fsWrite,
    storeInMemory, waitMemLoop, hasSpace, findWithIdx, modifyIdx,
    storeOnDiskEnter, sodLoop, storeOnDiskFinish, stopRunning,
    joinWorkerResult, joinWorkerState, setClient, clientAt, memHeld, isJoin,
    shA, shA2, hnm, U64]

theorem put2_shB (mm dm : Nat) (k : Key) (v1 v2 : Value) (h2m : v2.length ≤ mm) :
    runActs (shB mm dm k v1) [Action.invStore 0 k v2, Action.ack 0] =
      shB2 mm dm k v2 := by
  have hnm : ¬ (v2.length > mm) := by omega
  simp [runActs, step, storeStart, deleteOp, checkWorker, workerFinished,
    deleteFromMemory, deleteFromDisk, removeFile, fsLookup, fsErase, fsWrite,
    storeInMemory, waitMemLoop, hasSpace, findWithIdx, modifyIdx,
    storeOnDiskEnter, sodLoop, storeOnDiskFinish, stopRunning,
    joinWorkerResult, joinWorkerState, setClient, clientAt, memHeld, isJoin,
    shB, shB2, hnm, U64]

theorem put2_shC (mm dm : Nat) (k : Key) (v1 v2 : Value) (h2m : v2.length ≤ mm) :
    runActs (shC mm dm k v1) [Action.invStore 0 k v2, Action.ack 0] =
      shA2 mm dm k v2 := by
  have hnm : ¬ (v2.length > mm) := by omega
  simp [runActs, step, storeStart, deleteOp, checkWorker, workerFinished,
    deleteFromMemory, deleteFromDisk, removeFile, fsLookup, fsErase, fsWrite,
    storeInMemory, waitMemLoop, hasSpace, findWithIdx, modifyIdx,
    storeOnDiskEnter, sodLoop, storeOnDiskFinish, stopRunning,
    joinWorkerResult, joinWorkerState, setClient, clientAt, memHeld, isJoin,
    shC, shA2, hnm, U64]

theorem workerStep_shA2 (mm dm : Nat) (k : Key) (v2 : Value)
    (h2m : v2.length ≤ mm) (hmd : mm ≤ dm) :
    workerStep (shA2 mm dm k v2) = shD2 mm dm k v2 := by
  have hnd : ¬ (v2.length > dm) := by omega
  simp [workerStep, workerIdleStep, memHeld, isJoin, findWithIdx, modifyIdx,
    storeOnDiskEnter, sodLoop, storeOnDiskFinish, hasSpace, stopRunning,
    fsWrite, fsLookup, removeFile, shA2, shD2, hnd, U64]

theorem workerStep_shB2 (mm dm : Nat) (k : Key) (v2 : Value) :
    workerStep (shB2 mm dm k v2) = shF2 mm dm k v2 := by
  simp [workerStep, workerMarkStep, memHeld, isJoin, findWithIdx, modifyIdx, shB2, shF2]

theorem workerStep_shD2 (mm dm : Nat) (k : Key) (v2 : Value) :
    workerStep (shD2 mm dm k v2) = shE2 mm dm k v2 := by
  simp [workerStep, workerMarkStep, memHeld, isJoin, findWithIdx, modifyIdx, shD2, shE2]

theorem workerStep_shE2 (mm dm : Nat) (k : Key) (v2 : Value) :
    workerStep (shE2 mm dm k v2) = shE2 mm dm k v2 := by
  simp [workerStep, workerIdleStep, memHeld, isJoin, findWithIdx, shE2]

theorem workerStep_shF2 (mm dm : Nat) (k : Key) (v2 : Value) :
    workerStep (shF2 mm dm k v2) = shF2 mm dm k v2 := by
  simp [workerStep, workerIdleStep, memHeld, isJoin, findWithIdx, shF2]

theorem workerIter_put2 (mm dm : Nat) (k : Key) (v2 : Value)
    (h2m : v2.length ≤ mm) (hmd : mm ≤ dm) : ∀ (n : Nat) (s : GState),
    (s = shA2 mm dm k v2 ∨ s = shB2 mm dm k v2 ∨ s = shD2 mm dm k v2 ∨
      s = shE2 mm dm k v2 ∨ s = shF2 mm dm k v2) →
    (workerIter n s = shA2 mm dm k v2 ∨ workerIter n s = shB2 mm dm k v2 ∨
      workerIter n s = shD2 mm dm k v2 ∨ workerIter n s = shE2 mm dm k v2 ∨
      workerIter n s = shF2 mm dm k v2)
  | 0, _, h => h
  | n + 1, s, h => by
      have hrw : workerIter (n + 1) s = workerIter n (workerStep s) := rfl
      rw [hrw]
      rcases h with rfl | rfl | rfl | rfl | rfl
      · rw [workerStep_shA2 mm dm k v2 h2m hmd]
        exact workerIter_put2 mm dm k v2 h2m hmd n _ (Or.inr (Or.inr (Or.inl rfl)))
      · rw [workerStep_shB2]
        exact workerIter_put2 mm dm k v2 h2m hmd n _
          (Or.inr (Or.inr (Or.inr (Or.inr rfl))))
      · rw [workerStep_shD2]
        exact workerIter_put2 mm dm k v2 h2m hmd n _
          (Or.inr (Or.inr (Or.inr (Or.inl rfl))))
      · rw [workerStep_shE2]
        exact workerIter_put2 mm dm k v2 h2m hmd n _
          (Or.inr (Or.inr (Or.inr (Or.inl rfl))))
      · rw [workerStep_shF2]
        exact workerIter_put2 mm dm k v2 h2m hmd n _
          (Or.inr (Or.inr (Or.inr (Or.inr rfl))))

theorem get_after_put2 (mm dm : Nat) (k : Key) (v2 : Value) (s : GState)
    (h : s = shA2 mm dm k v2 ∨ s = shB2 mm dm k v2 ∨ s = shD2 mm dm k v2 ∨
      s = shE2 mm dm k v2 ∨ s = shF2 mm dm k v2) :
    clientAt (step s (Action.invGet 0 k)) 0 =
      some (ClientPC.ret (OpResult.good (some v2))) := by
  rcases h with rfl | rfl | rfl | rfl | rfl <;>
    simp [step, getStart, checkWorker, workerFinished, clientAt, memHeld, isJoin,
      setClient, List.find?, shA2, shB2, shD2, shE2, shF2]

end DataBufferModel

namespace DataBufferModel

theorem del_shA (mm dm : Nat) (k : Key) (v1 : Value) :
    runActs (shA mm dm k v1) [Action.invDelete 0 k, Action.ack 0] =
      shDel mm dm WorkerPC.idle := by
  simp [runActs, step, deleteStart, deleteOp, checkWorker, workerFinished,
    deleteFromMemory, deleteFromDisk, removeFile, fsLookup, fsErase,
    findWithIdx, modifyIdx, setClient, clientAt, memHeld, isJoin, shA, shDel]

theorem del_shB (mm dm : Nat) (k : Key) (v1 : Value) :
    runActs (shB mm dm k v1) [Action.invDelete 0 k, Action.ack 0] =
      shDel mm dm (WorkerPC.mark k) := by
  simp [runActs, step, deleteStart, deleteOp, checkWorker, workerFinished,
    deleteFromMemory, deleteFromDisk, removeFile, fsLookup, fsErase,
    findWithIdx, modifyIdx, setClient, clientAt, memHeld, isJoin, shB, shDel]

theorem del_shC (mm dm : Nat) (k : Key) (v1 : Value) :
    runActs (shC mm dm k v1) [Action.invDelete 0 k, Action.ack 0] =
      shDel mm dm WorkerPC.idle := by
  simp [runActs, step, deleteStart, deleteOp, checkWorker, workerFinished,
    deleteFromMemory, deleteFromDisk, removeFile, fsLookup, fsErase,
    findWithIdx, modifyIdx, setClient, clientAt, memHeld, isJoin, shC, shDel]

theorem workerStep_shDel_idle (mm dm : Nat) :
    workerStep (shDel mm dm WorkerPC.idle) = shDel mm dm WorkerPC.idle := by
  simp [workerStep, workerIdleStep, memHeld, isJoin, findWithIdx, shDel]

theorem workerStep_shDel_mark (mm dm : Nat) (k : Key) :
    workerStep (shDel mm dm (WorkerPC.mark k)) = shDel mm dm WorkerPC.idle := by
  simp [workerStep, workerMarkStep, memHeld, isJoin, findWithIdx, shDel]

theorem workerIter_del (mm dm : Nat) (k : Key) : ∀ (n : Nat) (s : GState),
    (s = shDel mm dm WorkerPC.idle ∨ s = shDel mm dm (WorkerPC.mark k)) →
    (workerIter n s = shDel mm dm WorkerPC.idle ∨
      workerIter n s = shDel mm dm (WorkerPC.mark k))
  | 0, _, h => h
  | n + 1, s, h => by
      have hrw : workerIter (n + 1) s = workerIter n (workerStep s) := rfl
      rw [hrw]
      rcases h with rfl | rfl
      · rw [workerStep_shDel_idle]
        exact workerIter_del mm dm k n _ (Or.inl rfl)
      · rw [workerStep_shDel_mark]
        exact workerIter_del mm dm k n _ (Or.inl rfl)

theorem get_after_del (mm dm : Nat) (k : Key) (s : GState)
    (h : s = shDel mm dm WorkerPC.idle ∨ s = shDel mm dm (WorkerPC.mark k)) :
    clientAt (step s (Action.invGet 0 k)) 0 =
      some (ClientPC.ret (OpResult.bad Err.noSuchElement)) := by
  rcases h with rfl | rfl <;>
    simp [step, getStart, checkWorker, workerFinished, clientAt, memHeld, isJoin,
      setClient, List.find?, shDel]

theorem put1_big_eq (mm dm : Nat) (k : Key) (v1 : Value)
    (hm : mm < v1.length) (hd : v1.length ≤ dm) :
    runActs (initState mm dm false 1) [Action.invStore 0 k v1, Action.ack 0] =
      shG mm dm k v1 WorkerPC.idle := by
  have hnd : ¬ (v1.length > dm) := by omega
  simp [runActs, step, storeStart, deleteOp, checkWorker, workerFinished,
    deleteFromMemory, deleteFromDisk, removeFile, fsLookup, fsErase, fsWrite,
    storeInMemory, waitMemLoop, hasSpace, findWithIdx, modifyIdx,
    storeOnDiskEnter, sodLoop, storeOnDiskFinish, stopRunning,
    joinWorkerResult, joinWorkerState, setClient, clientAt, memHeld, isJoin,
    initState, shG, hm, hnd, U64]

theorem workerStep_shG_idle (mm dm : Nat) (k : Key) (v : Value) :
    workerStep (shG mm dm k v WorkerPC.idle) = shG mm dm k v WorkerPC.idle := by
  simp [workerStep, workerIdleStep, memHeld, isJoin, findWithIdx, shG]

theorem workerStep_shG_mark (mm dm : Nat) (k : Key) (v : Value) :
    workerStep (shG mm dm k v (WorkerPC.mark k)) = shG mm dm k v WorkerPC.idle := by
  simp [workerStep, workerMarkStep, memHeld, isJoin, findWithIdx, shG]

theorem workerIter_shG_idle (mm dm : Nat) (k : Key) (v : Value) : ∀ (n : Nat),
    workerIter n (shG mm dm k v WorkerPC.idle) = shG mm dm k v WorkerPC.idle
  | 0 => rfl
  | n + 1 => by
      have hrw : workerIter (n + 1) (shG mm dm k v WorkerPC.idle) =
          workerIter n (workerStep (shG mm dm k v WorkerPC.idle)) := rfl
      rw [hrw, workerStep_shG_idle]
      exact workerIter_shG_idle mm dm k v n

theorem workerIter_shG (mm dm : Nat) (k : Key) (v : Value) : ∀ (n : Nat) (s : GState),
    (s = shG mm dm k v WorkerPC.idle ∨ s = shG mm dm k v (WorkerPC.mark k)) →
    (workerIter n s = shG mm dm k v WorkerPC.idle ∨
      workerIter n s = shG mm dm k v (WorkerPC.mark k))
  | 0, _, h => h
  | n + 1, s, h => by
      have hrw : workerIter (n + 1) s = workerIter n (workerStep s) := rfl
      rw [hrw]
      rcases h with rfl | rfl
      · rw [workerStep_shG_idle]
        exact workerIter_shG mm dm k v n _ (Or.inl rfl)
      · rw [workerStep_shG_mark]
        exact workerIter_shG mm dm k v n _ (Or.inl rfl)

theorem put2_big_shA (mm dm : Nat) (k : Key) (v1 v2 : Value)
    (hm : mm < v2.length) (hd : v2.length ≤ dm) :
    runActs (shA mm dm k v1) [Action.invStore 0 k v2, Action.ack 0] =
      shG mm dm k v2 WorkerPC.idle := by
  have hnd : ¬ (v2.length > dm) := by omega
  simp [runActs, step, storeStart, deleteOp, checkWorker, workerFinished,
    deleteFromMemory, deleteFromDisk, removeFile, fsLookup, fsErase, fsWrite,
    storeInMemory, waitMemLoop, hasSpace, findWithIdx, modifyIdx,
    storeOnDiskEnter, sodLoop, storeOnDiskFinish, stopRunning,
    joinWorkerResult, joinWorkerState, setClient, clientAt, memHeld, isJoin,
    shA, shG, hm, hnd, U64]

theorem put2_big_shB (mm dm : Nat) (k : Key) (v1 v2 : Value)
    (hm : mm < v2.length) (hd : v2.length ≤ dm) :
    runActs (shB mm dm k v1) [Action.invStore 0 k v2, Action.ack 0] =
      shG mm dm k v2 (WorkerPC.mark k) := by
  have hnd : ¬ (v2.length > dm) := by omega
  simp [runActs, step, storeStart, deleteOp, checkWorker, workerFinished,
    deleteFromMemory, deleteFromDisk, removeFile, fsLookup, fsErase, fsWrite,
    storeInMemory, waitMemLoop, hasSpace, findWithIdx, modifyIdx,
    storeOnDiskEnter, sodLoop, storeOnDiskFinish, stopRunning,
    joinWorkerResult, joinWorkerState, setClient, clientAt, memHeld, isJoin,
    shB, shG, hm, hnd, U64]

theorem put2_big_shC (mm dm : Nat) (k : Key) (v1 v2 : Value)
    (hm : mm < v2.length) (hd : v2.length ≤ dm) :
    runActs (shC mm dm k v1) [Action.invStore 0 k v2, Action.ack 0] =
      shG mm dm k v2 WorkerPC.idle := by
  have hnd : ¬ (v2.length > dm) := by omega
  simp [runActs, step, storeStart, deleteOp, checkWorker, workerFinished,
    deleteFromMemory, deleteFromDisk, removeFile, fsLookup, fsErase, fsWrite,
    storeInMemory, waitMemLoop, hasSpace, findWithIdx, modifyIdx,
    storeOnDiskEnter, sodLoop, storeOnDiskFinish, stopRunning,
    joinWorkerResult, joinWorkerState, setClient, clientAt, memHeld, isJoin,
    shC, shG, hm, hnd, U64]

theorem put2_small_shG (mm dm : Nat) (k : Key) (v1 v2 : Value)
    (h2m : v2.length ≤ mm) :
    runActs (shG mm dm k v1 WorkerPC.idle) [Action.invStore 0 k v2, Action.ack 0] =
      shA2 mm dm k v2 := by
  have hnm : ¬ (v2.length > mm) := by omega
  simp [runActs, step, storeStart, deleteOp, checkWorker, workerFinished,
    deleteFromMemory, deleteFromDisk, removeFile, fsLookup, fsErase, fsWrite,
    storeInMemory, waitMemLoop, hasSpace, findWithIdx, modifyIdx,
    storeOnDiskEnter, sodLoop, storeOnDiskFinish, stopRunning,
    joinWorkerResult, joinWorkerState, setClient, clientAt, memHeld, isJoin,
    shG, shA2, hnm, U64]

theorem put2_big_shG (mm dm : Nat) (k : Key) (v1 v2 : Value)
    (hm : mm < v2.length) (hd : v2.length ≤ dm) :
    runActs (shG mm dm k v1 WorkerPC.idle) [Action.invStore 0 k v2, Action.ack 0] =
      shG mm dm k v2 WorkerPC.idle := by
  have hnd : ¬ (v2.length > dm) := by omega
  simp [runActs, step, storeStart, deleteOp, checkWorker, workerFinished,
    deleteFromMemory, deleteFromDisk, removeFile, fsLookup, fsErase, fsWrite,
    storeInMemory, waitMemLoop, hasSpace, findWithIdx, modifyIdx,
    storeOnDiskEnter, sodLoop, storeOnDiskFinish, stopRunning,
    joinWorkerResult, joinWorkerState, setClient, clientAt, memHeld, isJoin,
    shG, hm, hnd, U64]

theorem get_after_put2_big (mm dm : Nat) (k : Key) (v2 : Value) (s : GState)
    (h : s = shG mm dm k v2 WorkerPC.idle ∨ s = shG mm dm k v2 (WorkerPC.mark k)) :
    clientAt (step s (Action.invGet 0 k)) 0 =
      some (ClientPC.ret (OpResult.good (some v2))) := by
  rcases h with rfl | rfl <;>
    simp [step, getStart, checkWorker, workerFinished, clientAt, memHeld, isJoin,
      setClient, List.find?, fsLookup, shG]

theorem del_shG (mm dm : Nat) (k : Key) (v1 : Value) :
    runActs (shG mm dm k v1 WorkerPC.idle) [Action.invDelete 0 k, Action.ack 0] =
      shDel mm dm WorkerPC.idle := by
  simp [runActs, step, deleteStart, deleteOp, checkWorker, workerFinished,
    deleteFromMemory, deleteFromDisk, removeFile, fsLookup, fsErase,
    findWithIdx, modifyIdx, setClient, clientAt, memHeld, isJoin, shG, shDel]

/-- C8: the sequential round-trip laws hold for every value accepted by `put` — any
size up to `disk.max`, covering both the via-memory path and the inline disk-write
path taken when `|v| > memory.max` — and under every interleaving of spill-worker
sections.  Starting from a fresh buffer, `put(k, v1); put(k, v2); get(k)` returns
`v2`, and `put(k, v1); remove(k); get(k)` fails with `no_such_element`, with
arbitrarily many worker sections run between the client calls. -/
theorem c8_sequential_laws (mm dm : Nat) (k : Key) (v1 v2 : Value)
    (h1d : v1.length ≤ dm) (h2d : v2.length ≤ dm) (hmd : mm ≤ dm)
    (n1 n2 m1 m2 : Nat) :
    clientAt
      (step
        (workerIter n2
          (runActs
            (workerIter n1
              (runActs (initState mm dm false 1) [Action.invStore 0 k v1, Action.ack 0]))
            [Action.invStore 0 k v2, Action.ack 0]))
        (Action.invGet 0 k)) 0 = some (ClientPC.ret (OpResult.good (some v2))) ∧
    clientAt
      (step
        (workerIter m2
          (runActs
            (workerIter m1
              (runActs (initState mm dm false 1) [Action.invStore 0 k v1, Action.ack 0]))
            [Action.invDelete 0 k, Action.ack 0]))
        (Action.invGet 0 k)) 0 =
      some (ClientPC.ret (OpResult.bad Err.noSuchElement)) := by
  constructor
  · by_cases h1m : v1.length ≤ mm
    · rw [put1_eq mm dm k v1 h1m]
      rcases workerIter_put1 mm dm k v1 h1m hmd n1 _ (Or.inl rfl) with h | h | h <;> rw [h]
      · by_cases h2m : v2.length ≤ mm
        · rw [put2_shA mm dm k v1 v2 h2m]
          exact get_after_put2 mm dm k v2 _
            (workerIter_put2 mm dm k v2 h2m hmd n2 _ (Or.inl rfl))
        · rw [put2_big_shA mm dm k v1 v2 (by omega) h2d]
          exact get_after_put2_big mm dm k v2 _
            (workerIter_shG mm dm k v2 n2 _ (Or.inl rfl))
      · by_cases h2m : v2.length ≤ mm
        · rw [put2_shB mm dm k v1 v2 h2m]
          exact get_after_put2 mm dm k v2 _
            (workerIter_put2 mm dm k v2 h2m hmd n2 _ (Or.inr (Or.inl rfl)))
        · rw [put2_big_shB mm dm k v1 v2 (by omega) h2d]
          exact get_after_put2_big mm dm k v2 _
            (workerIter_shG mm dm k v2 n2 _ (Or.inr rfl))
      · by_cases h2m : v2.length ≤ mm
        · rw [put2_shC mm dm k v1 v2 h2m]
          exact get_after_put2 mm dm k v2 _
            (workerIter_put2 mm dm k v2 h2m hmd n2 _ (Or.inl rfl))
        · rw [put2_big_shC mm dm k v1 v2 (by omega) h2d]
          exact get_after_put2_big mm dm k v2 _
            (workerIter_shG mm dm k v2 n2 _ (Or.inl rfl))
    · rw [put1_big_eq mm dm k v1 (by omega) h1d, workerIter_shG_idle mm dm k v1 n1]
      by_cases h2m : v2.length ≤ mm
      · rw [put2_small_shG mm dm k v1 v2 h2m]
        exact get_after_put2 mm dm k v2 _
          (workerIter_put2 mm dm k v2 h2m hmd n2 _ (Or.inl rfl))
      · rw [put2_big_shG mm dm k v1 v2 (by omega) h2d]
        exact get_after_put2_big mm dm k v2 _
          (workerIter_shG mm dm k v2 n2 _ (Or.inl rfl))
  · by_cases h1m : v1.length ≤ mm
    · rw [put1_eq mm dm k v1 h1m]
      rcases workerIter_put1 mm dm k v1 h1m hmd m1 _ (Or.inl rfl) with h | h | h <;> rw [h]
      · rw [del_shA]
        exact get_after_del mm dm k _ (workerIter_del mm dm k m2 _ (Or.inl rfl))
      · rw [del_shB]
        exact get_after_del mm dm k _ (workerIter_del mm dm k m2 _ (Or.inr rfl))
      · rw [del_shC]
        exact get_after_del mm dm k _ (workerIter_del mm dm k m2 _ (Or.inl rfl))
    · rw [put1_big_eq mm dm k v1 (by omega) h1d, workerIter_shG_idle mm dm k v1 m1,
        del_shG]
      exact get_after_del mm dm k _ (workerIter_del mm dm k m2 _ (Or.inl rfl))

/-- Witness for `c8_sequential_laws`: a concrete run in which the first value takes
the inline disk path (3 bytes against `memory.max = 2`) and the second the memory
path, with worker sections between the calls. -/
theorem c8_sequential_laws_witness :
    clientAt
      (step
        (workerIter 1
          (runActs
            (workerIter 2
              (runActs (initState 2 4 false 1)
                [Action.invStore 0 5 [1, 1, 1], Action.ack 0]))
            [Action.invStore 0 5 [2, 2], Action.ack 0]))
        (Action.invGet 0 5)) 0 = some (ClientPC.ret (OpResult.good (some [2, 2]))) ∧
    clientAt
      (step
        (workerIter 2
          (runActs
            (workerIter 3
              (runActs (initState 2 4 false 1)
                [Action.invStore 0 5 [1, 1, 1], Action.ack 0]))
            [Action.invDelete 0 5, Action.ack 0]))
        (Action.invGet 0 5)) 0 =
      some (ClientPC.ret (OpResult.bad Err.noSuchElement)) :=
  c8_sequential_laws 2 4 5 [1, 1, 1] [2, 2] (by decide) (by decide) (by decide) 2 1 3 2

end DataBufferModel
